import Mathlib

/-!
Verification of the roccandy/website pricing & production-slot allocation
engine against its specification.

Shallow embedding notes:
* ISO `YYYY-MM-DD` date keys are compared lexicographically in the source
  (`slot_date < todayKey`, `key >= block.start && key <= block.end`); for
  well-formed keys this order is isomorphic to the order on day numbers, so
  dates are embedded as integer day keys.
* JavaScript numeric weights/amounts are embedded as integers (the embedded
  logic only adds, subtracts and compares them; `Number.isFinite` guards
  hold for every integer, and the `NaN`/`Infinity` escapes are noted where
  the source checks for them).
* Supabase row ids are embedded as naturals drawn from a `nextId` counter.
* `maybeSingle()` yields an error on more than one matching row; `single()`
  also errors on zero rows.  Both are embedded by matching on the list of
  rows satisfying the query filter.
-/

deriving instance DecidableEq for Except

namespace RocCandy

/-! ## Slot allocation engine: data model (orders, production_slots, order_slots) -/

/-- Row of `orders` restricted to the columns the slot allocation engine
reads or writes (`id`, `total_weight_kg`, `status`). -/
structure Order where
  id : Nat
  total_weight_kg : Int
  status : String
deriving DecidableEq, Repr

/-- Row of `production_slots`. -/
structure ProductionSlot where
  id : Nat
  slot_date : Int
  slot_index : Int
  capacity_kg : Int
  status : String
deriving DecidableEq, Repr

/-- Row of `order_slots` (an assignment). -/
structure OrderSlot where
  id : Nat
  order_id : Nat
  slot_id : Nat
  kg_assigned : Int
deriving DecidableEq, Repr

/-- The slot-allocation engine's visible store state. -/
structure SchedState where
  orders : List Order
  slots : List ProductionSlot
  assigns : List OrderSlot
  nextId : Nat
deriving DecidableEq, Repr

/-- Arguments of the `assignOrderToSlot` server action, after form parsing
(`assignment_id`, `order_id`, `slot_id`, `slot_date`, `slot_index`,
`kg_assigned`).  A missing/non-finite `slot_index` is `none`. -/
structure AssignArgs where
  assignmentId : Option Nat
  orderId : Nat
  slotId : Option Nat
  slotDate : Option Int
  slotIndex : Option Int
  kgAssigned : Int
deriving DecidableEq, Repr

/-- Lines 456-482 of `assignOrderToSlot`: resolve the target slot id.  When
no `slot_id` is given, look up the slot at (`slot_date`, `slot_index`)
(`maybeSingle`), lazily creating it with `capacity_kg = max_total_kg` and
status `"open"` when absent. -/
def resolveSlot (maxTotalKg : Int) (s : SchedState) (a : AssignArgs) :
    Except String (SchedState × Nat) :=
  match a.slotId with
  | some sid => .ok (s, sid)
  | none =>
    match a.slotDate, a.slotIndex with
    | some d, some idx =>
      match s.slots.filter (fun sl => sl.slot_date == d && sl.slot_index == idx) with
      | [] =>
        let created : ProductionSlot :=
          { id := s.nextId, slot_date := d, slot_index := idx,
            capacity_kg := maxTotalKg, status := "open" }
        .ok ({ s with slots := s.slots ++ [created], nextId := s.nextId + 1 }, s.nextId)
      | [sl] => .ok (s, sl.id)
      | _ => .error "maybeSingle: multiple production slots matched"
    | _, _ => .error "Slot could not be resolved."

/-- Line 497-500: the target slot's current assignment rows. -/
def slotAssignmentsOf (s : SchedState) (rid : Nat) : List OrderSlot :=
  s.assigns.filter (fun r => r.slot_id == rid)

/-- Line 503-506: the order's current assignment rows. -/
def orderAssignmentsOf (s : SchedState) (oid : Nat) : List OrderSlot :=
  s.assigns.filter (fun r => r.order_id == oid)

/-- Line 510-513: the kg of the assignment being replaced (with an
`assignment_id`, the matching row of the *target slot*; without one, the
order's first assignment row). -/
def previousForAssignmentOf (s : SchedState) (a : AssignArgs) (rid : Nat) : Int :=
  match a.assignmentId with
  | some aid =>
    (((slotAssignmentsOf s rid).find? (fun r => r.id == aid)).map (·.kg_assigned)).getD 0
  | none => (((orderAssignmentsOf s a.orderId).head?).map (·.kg_assigned)).getD 0

/-- Line 515-518: the order's prospective assigned total. -/
def orderUsedOf (s : SchedState) (a : AssignArgs) (rid : Nat) : Int :=
  ((orderAssignmentsOf s a.orderId).map (·.kg_assigned)).sum
    - previousForAssignmentOf s a rid + a.kgAssigned

/-- Line 523: `slotAssignments[0]?.id !== assignmentId &&
slotAssignments[0]?.id !== existingOrderAssignment?.id` (negated: the
occupancy check passes). -/
def slotHeadOk (s : SchedState) (a : AssignArgs) (rid : Nat) : Bool :=
  match (slotAssignmentsOf s rid).head? with
  | none => true
  | some h => a.assignmentId == some h.id
      || ((orderAssignmentsOf s a.orderId).head?).map (·.id) == some h.id

/-- Lines 527-544: the upsert of the `order_slots` row (new row list and new
id counter). -/
def nextAssignsOf (s : SchedState) (a : AssignArgs) (rid : Nat) : List OrderSlot × Nat :=
  match a.assignmentId with
  | some aid =>
    (s.assigns.map (fun r =>
      if r.id == aid then
        { r with order_id := a.orderId, slot_id := rid, kg_assigned := a.kgAssigned }
      else r), s.nextId)
  | none =>
    match (orderAssignmentsOf s a.orderId).head? with
    | some ex =>
      (s.assigns.map (fun r =>
        if r.id == ex.id then
          { r with slot_id := rid, kg_assigned := a.kgAssigned }
        else r), s.nextId)
    | none =>
      (s.assigns ++ [{ id := s.nextId, order_id := a.orderId,
                       slot_id := rid, kg_assigned := a.kgAssigned }],
       s.nextId + 1)

/-- Lines 497-549 of `assignOrderToSlot`: the capacity check, the
one-order-per-slot check and the upsert of the `order_slots` row, given the
resolved target slot id; finally the order's status is set to
`"scheduled"` (line 546). -/
def applyAssignment (s : SchedState) (a : AssignArgs) (order : Order) (rid : Nat) :
    Except String SchedState :=
  if order.total_weight_kg < orderUsedOf s a rid then
    .error "Assigned kg exceeds the order's total weight."
  else if !slotHeadOk s a rid then
    .error "This slot already has an order assigned."
  else
    .ok { s with
          assigns := (nextAssignsOf s a rid).1
          nextId := (nextAssignsOf s a rid).2
          orders := s.orders.map (fun o =>
            if o.id == a.orderId then { o with status := "scheduled" } else o) }

/-- Lines 485-495 of `assignOrderToSlot`: when only a `slot_id` was
supplied, the resolved slot's stored date is checked against today
(`maybeSingle`; when the slot row does not exist no check happens). -/
def storedDatePastCheck (todayKey : Int) (s₁ : SchedState) (a : AssignArgs) (rid : Nat) :
    Except String Unit :=
  if a.slotDate == none then
    match s₁.slots.filter (fun sl => sl.id == rid) with
    | [] => .ok ()
    | [sl] =>
      if sl.slot_date < todayKey then .error "Cannot assign orders to past dates."
      else .ok ()
    | _ => .error "maybeSingle: multiple production slots matched"
  else .ok ()

/-- The `assignOrderToSlot` server action
(src/src/app/admin/orders/actions.ts:419-550).  `maxTotalKg` is
`Settings.max_total_kg`, `todayKey` the current local date key. -/
def assignOrderToSlot (maxTotalKg todayKey : Int) (s : SchedState) (a : AssignArgs) :
    Except String SchedState :=
  if a.slotId == none && (a.slotDate == none || a.slotIndex == none) then
    .error "Slot date and index are required."
  else if decide (a.kgAssigned ≤ 0) then
    .error "Assigned kg must be greater than zero."
  else if (match a.slotDate with | some d => decide (d < todayKey) | none => false) then
    .error "Cannot assign orders to past dates."
  else
    match s.orders.filter (fun o => o.id == a.orderId) with
    | [order] =>
      match resolveSlot maxTotalKg s a with
      | .error e => .error e
      | .ok res =>
        match storedDatePastCheck todayKey res.1 a res.2 with
        | .error e => .error e
        | .ok _ => applyAssignment res.1 a order res.2
    | _ => .error "single: order lookup failed"

/-- The `deleteAssignment` server action
(src/src/app/admin/orders/actions.ts:552-576): look up the assignment row
(`maybeSingle`), delete it, and set the affected order's status back to
`"unassigned"`. -/
def deleteAssignment (s : SchedState) (aid : Nat) : Except String SchedState :=
  match s.assigns.filter (fun r => r.id == aid) with
  | [] => .ok { s with assigns := s.assigns.filter (fun r => !(r.id == aid)) }
  | [r] =>
    .ok { s with
          assigns := s.assigns.filter (fun x => !(x.id == aid))
          orders := s.orders.map (fun o =>
            if o.id == r.order_id then { o with status := "unassigned" } else o) }
  | _ => .error "maybeSingle: multiple assignment rows matched"

/-- An admin request against the slot allocation engine. -/
inductive SchedOp
  | assign (a : AssignArgs)
  | unassign (aid : Nat)
deriving DecidableEq, Repr

/-- Run one request; a thrown error leaves the store unchanged (every
mutation in the source happens after all checks passed). -/
def applyOp (maxTotalKg todayKey : Int) (s : SchedState) : SchedOp → SchedState
  | .assign a =>
    match assignOrderToSlot maxTotalKg todayKey s a with
    | .ok s' => s'
    | .error _ => s
  | .unassign aid =>
    match deleteAssignment s aid with
    | .ok s' => s'
    | .error _ => s

/-- Run a sequence of requests. -/
def runOps (maxTotalKg todayKey : Int) (s : SchedState) : List SchedOp → SchedState
  | [] => s
  | op :: ops => runOps maxTotalKg todayKey (applyOp maxTotalKg todayKey s op) ops

/-- Total `kg_assigned` currently recorded for an order. -/
def assignedSum (s : SchedState) (oid : Nat) : Int :=
  ((s.assigns.filter (fun r => r.order_id == oid)).map (·.kg_assigned)).sum

/-! ## Inversion lemmas -/

theorem resolveSlot_ok_inv {m : Int} {s : SchedState} {a : AssignArgs} {s₁ : SchedState}
    {rid : Nat} (h : resolveSlot m s a = .ok (s₁, rid)) :
    s₁.assigns = s.assigns ∧ s₁.orders = s.orders ∧ s.nextId ≤ s₁.nextId := by
  unfold resolveSlot at h
  split at h
  · cases h; exact ⟨rfl, rfl, Nat.le_refl _⟩
  · split at h
    · split at h
      · cases h; exact ⟨rfl, rfl, Nat.le_succ _⟩
      · cases h; exact ⟨rfl, rfl, Nat.le_refl _⟩
      · cases h
    · cases h

theorem applyAssignment_ok_inv {s : SchedState} {a : AssignArgs} {order : Order}
    {rid : Nat} {s' : SchedState} (h : applyAssignment s a order rid = .ok s') :
    ¬ order.total_weight_kg < orderUsedOf s a rid ∧
    slotHeadOk s a rid = true ∧
    s' = { s with
           assigns := (nextAssignsOf s a rid).1
           nextId := (nextAssignsOf s a rid).2
           orders := s.orders.map (fun o =>
             if o.id == a.orderId then { o with status := "scheduled" } else o) } := by
  unfold applyAssignment at h
  split at h
  · cases h
  · split at h
    · cases h
    · next hlt hbool =>
      cases h
      refine ⟨hlt, ?_, rfl⟩
      simpa using hbool

theorem assignOrderToSlot_ok_inv {m t : Int} {s : SchedState} {a : AssignArgs}
    {s' : SchedState} (h : assignOrderToSlot m t s a = .ok s') :
    0 < a.kgAssigned ∧
    ∃ order s₁ rid,
      s.orders.filter (fun o => o.id == a.orderId) = [order] ∧
      resolveSlot m s a = .ok (s₁, rid) ∧
      applyAssignment s₁ a order rid = .ok s' := by
  unfold assignOrderToSlot at h
  split at h
  · cases h
  · split at h
    · cases h
    · split at h
      · cases h
      · next hkg _ =>
        have hkg' : 0 < a.kgAssigned := by
          by_contra hc
          exact hkg (by simpa using Int.not_lt.mp (fun hlt => hc (by omega)))
        refine ⟨by omega, ?_⟩
        split at h
        · next order heq =>
          refine ⟨order, ?_⟩
          split at h
          · cases h
          · next res hres =>
            refine ⟨res.1, res.2, heq, by simpa using hres, ?_⟩
            split at h
            · cases h
            · exact h
        · cases h

/-! ## List helpers -/

theorem mem_of_filter_head? {l : List OrderSlot} {p : OrderSlot → Bool} {ex : OrderSlot}
    (h : (l.filter p).head? = some ex) : ex ∈ l ∧ p ex = true := by
  have hmem : ex ∈ l.filter p := List.mem_of_mem_head? (by simp [h])
  exact ⟨(List.mem_filter.mp hmem).1, (List.mem_filter.mp hmem).2⟩

theorem map_update_const {l : List OrderSlot} {ex : OrderSlot} (f : OrderSlot → OrderSlot)
    (hnd : (l.map (·.id)).Nodup) (hmem : ex ∈ l) :
    (l.map fun r => if r.id == ex.id then f r else r)
      = l.map fun r => if r.id == ex.id then f ex else r := by
  apply List.map_congr_left
  intro r hr
  by_cases hid : r.id = ex.id
  · have hre : r = ex := List.inj_on_of_nodup_map hnd hr hmem hid
    subst hre; rfl
  · simp [hid]

theorem update_decomp {l : List OrderSlot} {ex : OrderSlot} (v : OrderSlot)
    (hnd : (l.map (·.id)).Nodup) (hmem : ex ∈ l) :
    ∃ l₁ l₂, l = l₁ ++ ex :: l₂ ∧
      (l.map fun r => if r.id == ex.id then v else r) = l₁ ++ v :: l₂ ∧
      (∀ r, r ∈ l₁ ∨ r ∈ l₂ → ¬ r.id = ex.id) := by
  obtain ⟨l₁, l₂, rfl⟩ := List.append_of_mem hmem
  refine ⟨l₁, l₂, rfl, ?_⟩
  rw [List.map_append, List.map_cons, List.nodup_append] at hnd
  obtain ⟨h1, h2, hdisj⟩ := hnd
  obtain ⟨hex2, _⟩ := List.nodup_cons.mp h2
  have hnotmem : ∀ r, r ∈ l₁ ∨ r ∈ l₂ → ¬ r.id = ex.id := by
    intro r hr hcontra
    rcases hr with hr | hr
    · exact hdisj (List.mem_map_of_mem _ hr) (by rw [hcontra]; exact List.mem_cons_self _ _)
    · exact hex2 (hcontra ▸ List.mem_map_of_mem _ hr)
  refine ⟨?_, hnotmem⟩
  rw [List.map_append, List.map_cons]
  have h₁ : (l₁.map fun r => if r.id == ex.id then v else r) = l₁ := by
    apply (List.map_congr_left (fun r hr => ?_)).trans (List.map_id _)
    simp [hnotmem r (Or.inl hr)]
  have h₂ : (l₂.map fun r => if r.id == ex.id then v else r) = l₂ := by
    apply (List.map_congr_left (fun r hr => ?_)).trans (List.map_id _)
    simp [hnotmem r (Or.inr hr)]
  rw [h₁, h₂]
  simp

/-! ## Well-formedness invariant maintained by the request flow -/

/-- Well-formedness of the scheduling store: assignment row ids are
distinct and below the id counter, every assignment's kg is positive, and
every order's recorded assigned total is within its weight. -/
def SeqInv (s : SchedState) : Prop :=
  (s.assigns.map (·.id)).Nodup ∧
  (∀ r ∈ s.assigns, r.id < s.nextId ∧ 0 < r.kg_assigned) ∧
  (∀ o ∈ s.orders, assignedSum s o.id ≤ o.total_weight_kg)

instance : DecidablePred SeqInv := fun s => by unfold SeqInv; infer_instance

theorem assignedSum_congr {s₁ s : SchedState} (h : s₁.assigns = s.assigns) (oid : Nat) :
    assignedSum s₁ oid = assignedSum s oid := by
  unfold assignedSum
  rw [h]

theorem seqInv_applyAssignment_none {s : SchedState} {a : AssignArgs} {order : Order}
    {rid : Nat} {s' : SchedState}
    (hinv : SeqInv s) (haid : a.assignmentId = none) (hkg : 0 < a.kgAssigned)
    (horder : s.orders.filter (fun o => o.id == a.orderId) = [order])
    (h : applyAssignment s a order rid = .ok s') : SeqInv s' := by
  obtain ⟨hnd, hbnd, hsum⟩ := hinv
  obtain ⟨hle, _, rfl⟩ := applyAssignment_ok_inv h
  have hordmem : ∀ o ∈ s.orders, o.id = a.orderId → o = order := by
    intro o ho hid
    have : o ∈ s.orders.filter (fun o => o.id == a.orderId) :=
      List.mem_filter.mpr ⟨ho, by simp [hid]⟩
    rw [horder] at this
    simpa using this
  cases hex : (orderAssignmentsOf s a.orderId).head? with
  | none =>
    -- insert branch: no existing assignment row for the order
    have hempty : orderAssignmentsOf s a.orderId = [] := by
      cases hl : orderAssignmentsOf s a.orderId with
      | nil => rfl
      | cons x xs => rw [hl] at hex; cases hex
    have hnext : nextAssignsOf s a rid =
        (s.assigns ++ [{ id := s.nextId, order_id := a.orderId,
                         slot_id := rid, kg_assigned := a.kgAssigned }], s.nextId + 1) := by
      unfold nextAssignsOf
      rw [haid, hex]
    have hused := hle
    unfold orderUsedOf previousForAssignmentOf at hused
    rw [haid, hex, hempty] at hused
    simp at hused
    refine ⟨?_, ?_, ?_⟩
    · rw [hnext]
      simp only [List.map_append, List.map_cons, List.map_nil]
      rw [List.nodup_append]
      refine ⟨hnd, by simp, ?_⟩
      intro x hx hx2
      obtain ⟨r, hr, rfl⟩ := List.mem_map.mp hx
      have hb := (hbnd r hr).1
      have hxid : r.id = s.nextId := by simpa using hx2
      omega
    · rw [hnext]
      intro r hr
      rcases List.mem_append.mp hr with hr | hr
      · have hb := hbnd r hr
        refine ⟨?_, hb.2⟩
        show r.id < s.nextId + 1
        omega
      · simp only [List.mem_singleton] at hr
        subst hr
        refine ⟨?_, hkg⟩
        show s.nextId < s.nextId + 1
        omega
    · intro o' ho'
      obtain ⟨o, ho, rfl⟩ := List.mem_map.mp ho'
      have hid : (if o.id == a.orderId then { o with status := "scheduled" } else o).id = o.id := by
        split <;> rfl
      have htot : (if o.id == a.orderId then { o with status := "scheduled" } else o).total_weight_kg
          = o.total_weight_kg := by
        split <;> rfl
      rw [hid, htot]
      unfold assignedSum
      rw [hnext]
      simp only [List.filter_append]
      by_cases hcase : o.id = a.orderId
      · have hoeq : o = order := hordmem o ho hcase
        subst hoeq
        have hfilterold : s.assigns.filter (fun r => r.order_id == o.id) = [] := by
          rw [hcase]; exact hempty
        have hfilternew : List.filter (fun r => r.order_id == o.id)
            [({ id := s.nextId, order_id := a.orderId, slot_id := rid,
                kg_assigned := a.kgAssigned } : OrderSlot)]
            = [{ id := s.nextId, order_id := a.orderId, slot_id := rid,
                 kg_assigned := a.kgAssigned }] := by
          simp [List.filter_cons, hcase]
        rw [hfilterold, hfilternew]
        simp only [List.nil_append, List.map_cons, List.map_nil, List.sum_cons, List.sum_nil]
        omega
      · have hfilternew : List.filter (fun r => r.order_id == o.id)
            [({ id := s.nextId, order_id := a.orderId, slot_id := rid,
                kg_assigned := a.kgAssigned } : OrderSlot)] = [] := by
          simp only [List.filter_cons, List.filter_nil]
          rw [if_neg]
          simp only [beq_iff_eq]
          exact fun hcon => hcase hcon.symm
        rw [hfilternew]
        simpa [assignedSum] using hsum o ho
  | some ex =>
    -- update branch: the order's existing row is updated in place
    obtain ⟨hexmem, hexp⟩ := mem_of_filter_head? hex
    have hexord : ex.order_id = a.orderId := by simpa using hexp
    have hnext : nextAssignsOf s a rid =
        ((s.assigns.map fun r => if r.id == ex.id then
            { r with slot_id := rid, kg_assigned := a.kgAssigned } else r), s.nextId) := by
      unfold nextAssignsOf
      rw [haid, hex]
    have hconst := map_update_const
      (fun r => { r with slot_id := rid, kg_assigned := a.kgAssigned }) hnd hexmem
    obtain ⟨l₁, l₂, hdecomp, hmapped, _⟩ := update_decomp
      ({ ex with slot_id := rid, kg_assigned := a.kgAssigned }) hnd hexmem
    have hassigns : (nextAssignsOf s a rid).1 = l₁ ++
        { ex with slot_id := rid, kg_assigned := a.kgAssigned } :: l₂ := by
      rw [hnext]
      exact hconst.trans hmapped
    refine ⟨?_, ?_, ?_⟩
    · rw [hassigns]
      have : (l₁ ++ ({ ex with slot_id := rid, kg_assigned := a.kgAssigned } : OrderSlot) :: l₂).map (·.id)
          = (l₁ ++ ex :: l₂).map (·.id) := by
        simp
      rw [this, ← hdecomp]
      exact hnd
    · rw [hassigns]
      intro r hr
      rw [hnext]
      rcases List.mem_append.mp hr with hr | hr
      · exact hbnd r (hdecomp ▸ List.mem_append.mpr (Or.inl hr))
      · rcases List.mem_cons.mp hr with rfl | hr
        · have := hbnd ex hexmem
          exact ⟨this.1, hkg⟩
        · exact hbnd r (hdecomp ▸ List.mem_append.mpr (Or.inr (List.mem_cons_of_mem _ hr)))
    · intro o' ho'
      obtain ⟨o, ho, rfl⟩ := List.mem_map.mp ho'
      have hid : (if o.id == a.orderId then { o with status := "scheduled" } else o).id = o.id := by
        split <;> rfl
      have htot : (if o.id == a.orderId then { o with status := "scheduled" } else o).total_weight_kg
          = o.total_weight_kg := by
        split <;> rfl
      rw [hid, htot]
      unfold assignedSum
      rw [hassigns]
      by_cases hcase : o.id = a.orderId
      · have hoeq : o = order := hordmem o ho hcase
        subst hoeq
        have hused := hle
        unfold orderUsedOf previousForAssignmentOf at hused
        rw [haid, hex] at hused
        simp at hused
        have holdsum : ((orderAssignmentsOf s a.orderId).map (·.kg_assigned)).sum
            = ((l₁.filter (fun r => r.order_id == a.orderId)).map (·.kg_assigned)).sum
              + ex.kg_assigned
              + ((l₂.filter (fun r => r.order_id == a.orderId)).map (·.kg_assigned)).sum := by
          unfold orderAssignmentsOf
          rw [hdecomp]
          simp only [List.filter_append, List.filter_cons, hexord, beq_self_eq_true,
            if_true, List.map_append, List.map_cons, List.sum_append, List.sum_cons]
          omega
        rw [holdsum] at hused
        have hvex : (({ ex with slot_id := rid, kg_assigned := a.kgAssigned } : OrderSlot).order_id
            == o.id) = true := by
          show (ex.order_id == o.id) = true
          simp [hexord, hcase]
        have hexm : (ex.order_id == o.id) = true := by simp [hexord, hcase]
        simp only [List.filter_append, List.filter_cons, hvex, if_true, List.map_append,
          List.map_cons, List.sum_append, List.sum_cons]
        have hfe : ∀ (l' : List OrderSlot),
            l'.filter (fun r => r.order_id == o.id)
              = l'.filter (fun r => r.order_id == a.orderId) := by
          intro l'
          rw [hcase]
        rw [hfe l₁, hfe l₂]
        omega
      · have hvex : (({ ex with slot_id := rid, kg_assigned := a.kgAssigned } : OrderSlot).order_id
            == o.id) = false := by
          show (ex.order_id == o.id) = false
          simp only [beq_eq_false_iff_ne, ne_eq, hexord]
          exact fun hcon => hcase hcon.symm
        have hexf : (ex.order_id == o.id) = false := by
          simp only [beq_eq_false_iff_ne, ne_eq, hexord]
          exact fun hcon => hcase hcon.symm
        have hsame : (l₁ ++ ({ ex with slot_id := rid, kg_assigned := a.kgAssigned } : OrderSlot)
              :: l₂).filter (fun r => r.order_id == o.id)
            = s.assigns.filter (fun r => r.order_id == o.id) := by
          rw [hdecomp]
          simp only [List.filter_append, List.filter_cons, hvex, hexf]
          simp
        rw [hsame]
        exact hsum o ho

theorem seqInv_assign {m t : Int} {s s' : SchedState} {a : AssignArgs}
    (hinv : SeqInv s) (haid : a.assignmentId = none)
    (h : assignOrderToSlot m t s a = .ok s') : SeqInv s' := by
  obtain ⟨hkg, order, s₁, rid, horder, hres, happ⟩ := assignOrderToSlot_ok_inv h
  obtain ⟨ha1, ho1, hn1⟩ := resolveSlot_ok_inv hres
  obtain ⟨hnd, hbnd, hsum⟩ := hinv
  have hinv₁ : SeqInv s₁ := by
    refine ⟨by rw [ha1]; exact hnd, ?_, ?_⟩
    · intro r hr
      rw [ha1] at hr
      have := hbnd r hr
      exact ⟨by omega, this.2⟩
    · intro o ho
      rw [ho1] at ho
      rw [assignedSum_congr ha1]
      exact hsum o ho
  have horder₁ : s₁.orders.filter (fun o => o.id == a.orderId) = [order] := by
    rw [ho1]; exact horder
  exact seqInv_applyAssignment_none hinv₁ haid hkg horder₁ happ

theorem seqInv_delete {s s' : SchedState} {aid : Nat}
    (hinv : SeqInv s) (h : deleteAssignment s aid = .ok s') : SeqInv s' := by
  obtain ⟨hnd, hbnd, hsum⟩ := hinv
  have hassigns : s'.assigns = s.assigns.filter (fun r => !(r.id == aid)) ∧
      (∀ o' ∈ s'.orders, ∃ o ∈ s.orders, o'.id = o.id ∧
        o'.total_weight_kg = o.total_weight_kg) ∧ s'.nextId = s.nextId := by
    unfold deleteAssignment at h
    split at h
    · cases h
      exact ⟨rfl, fun o' ho' => ⟨o', ho', rfl, rfl⟩, rfl⟩
    · cases h
      refine ⟨rfl, ?_, rfl⟩
      intro o' ho'
      obtain ⟨o, ho, rfl⟩ := List.mem_map.mp ho'
      refine ⟨o, ho, ?_, ?_⟩ <;> split <;> rfl
    · cases h
  obtain ⟨ha, ho, hn⟩ := hassigns
  have hsub : s'.assigns.Sublist s.assigns := ha ▸ List.filter_sublist _
  refine ⟨?_, ?_, ?_⟩
  · exact (hsub.map (·.id)).nodup hnd
  · intro r hr
    have := hbnd r (hsub.mem hr)
    rw [hn]
    exact this
  · intro o' ho'
    obtain ⟨o, homem, hid, htot⟩ := ho o' ho'
    rw [hid, htot]
    calc assignedSum s' o.id
        ≤ assignedSum s o.id := by
          unfold assignedSum
          apply List.Sublist.sum_le_sum
          · exact (hsub.filter _).map _
          · intro x hx
            obtain ⟨r, hr, rfl⟩ := List.mem_map.mp hx
            have := (hbnd r (List.mem_of_mem_filter hr)).2
            omega
      _ ≤ o.total_weight_kg := hsum o homem

/-- Requests issued by the admin UI: the slot-picker form never posts an
`assignment_id` (OrdersTable only sends `order_id`, `slot_date`,
`slot_index` and `kg_assigned`). -/
def noAssignmentId : SchedOp → Bool
  | .assign a => a.assignmentId == none
  | .unassign _ => true

theorem seqInv_applyOp {m t : Int} {s : SchedState} {op : SchedOp}
    (hinv : SeqInv s)
    (hop : noAssignmentId op = true) :
    SeqInv (applyOp m t s op) := by
  cases op with
  | assign a =>
    replace hop : a.assignmentId = none := by simpa [noAssignmentId] using hop
    have hres : applyOp m t s (SchedOp.assign a) =
        match assignOrderToSlot m t s a with
        | .ok s' => s'
        | .error _ => s := rfl
    rw [hres]
    cases hh : assignOrderToSlot m t s a with
    | ok s' => exact seqInv_assign hinv hop hh
    | error e => exact hinv
  | unassign aid =>
    have hres : applyOp m t s (SchedOp.unassign aid) =
        match deleteAssignment s aid with
        | .ok s' => s'
        | .error _ => s := rfl
    rw [hres]
    cases hh : deleteAssignment s aid with
    | ok s' => exact seqInv_delete hinv hh
    | error e => exact hinv

theorem slotHead_eq_of_mem {s : SchedState} {rid : Nat} {r : OrderSlot}
    (hslot : (s.assigns.map (·.slot_id)).Nodup)
    (hr : r ∈ s.assigns) (hrid : r.slot_id = rid) :
    (slotAssignmentsOf s rid).head? = some r := by
  have hmem : r ∈ slotAssignmentsOf s rid :=
    List.mem_filter.mpr ⟨hr, by simp [hrid]⟩
  cases hh : (slotAssignmentsOf s rid).head? with
  | none =>
    rw [List.head?_eq_none_iff] at hh
    rw [hh] at hmem
    cases hmem
  | some h =>
    obtain ⟨hhm, hp⟩ := mem_of_filter_head? hh
    have hps : h.slot_id = rid := by simpa using hp
    have heq : h = r := List.inj_on_of_nodup_map hslot hhm hr (by rw [hps, hrid])
    rw [heq]

theorem target_slot_same_order {s : SchedState} {a : AssignArgs} {rid : Nat} {r : OrderSlot}
    (hid : (s.assigns.map (·.id)).Nodup)
    (hslot : (s.assigns.map (·.slot_id)).Nodup)
    (hok : slotHeadOk s a rid = true)
    (hr : r ∈ s.assigns) (hrid : r.slot_id = rid)
    (hne : ¬ a.assignmentId = some r.id) :
    r.order_id = a.orderId := by
  have hhead := slotHead_eq_of_mem hslot hr hrid
  unfold slotHeadOk at hok
  rw [hhead] at hok
  simp only [Bool.or_eq_true, beq_iff_eq] at hok
  rcases hok with hok | hok
  · exact absurd hok hne
  · cases hex : (orderAssignmentsOf s a.orderId).head? with
    | none => rw [hex] at hok; cases hok
    | some ex =>
      rw [hex] at hok
      have hexid : ex.id = r.id := by simpa using hok
      obtain ⟨hexm, hexp⟩ := mem_of_filter_head? hex
      have heq : ex = r := List.inj_on_of_nodup_map hid hexm hr hexid
      rw [← heq]
      simpa using hexp

theorem pairs_of_mem_split {L l₁ l₂ : List OrderSlot} {v : OrderSlot}
    (hsub : ∀ x, x ∈ l₁ ∨ x ∈ l₂ → x ∈ L)
    (hslotinj : ∀ x ∈ L, ∀ y ∈ L, x.slot_id = y.slot_id → x = y)
    (hold : ∀ x, x ∈ l₁ ∨ x ∈ l₂ → x.slot_id = v.slot_id → x.order_id = v.order_id) :
    ∀ r1 ∈ l₁ ++ v :: l₂, ∀ r2 ∈ l₁ ++ v :: l₂, r1.slot_id = r2.slot_id →
      r1.order_id = r2.order_id := by
  have hmem : ∀ r, r ∈ l₁ ++ v :: l₂ → (r ∈ l₁ ∨ r ∈ l₂) ∨ r = v := by
    intro r hr
    rcases List.mem_append.mp hr with h | h
    · exact Or.inl (Or.inl h)
    · rcases List.mem_cons.mp h with h | h
      · exact Or.inr h
      · exact Or.inl (Or.inr h)
  intro r1 h1 r2 h2 hs
  rcases hmem r1 h1 with ho1 | he1
  · rcases hmem r2 h2 with ho2 | he2
    · exact congrArg OrderSlot.order_id (hslotinj r1 (hsub _ ho1) r2 (hsub _ ho2) hs)
    · rw [he2] at hs ⊢
      exact hold r1 ho1 hs
  · rcases hmem r2 h2 with ho2 | he2
    · rw [he1] at hs ⊢
      exact (hold r2 ho2 hs.symm).symm
    · rw [he1, he2]

theorem assign_pairs_same_order {s : SchedState} {a : AssignArgs} {order : Order}
    {rid : Nat} {s' : SchedState}
    (hid : (s.assigns.map (·.id)).Nodup)
    (hslot : (s.assigns.map (·.slot_id)).Nodup)
    (happ : applyAssignment s a order rid = .ok s') :
    ∀ r1 ∈ s'.assigns, ∀ r2 ∈ s'.assigns, r1.slot_id = r2.slot_id →
      r1.order_id = r2.order_id := by
  obtain ⟨hle, hheadok, rfl⟩ := applyAssignment_ok_inv happ
  have hslotinj : ∀ x ∈ s.assigns, ∀ y ∈ s.assigns, x.slot_id = y.slot_id → x = y :=
    fun x hx y hy => List.inj_on_of_nodup_map hslot hx hy
  intro r1 h1 r2 h2 hs
  replace h1 : r1 ∈ (nextAssignsOf s a rid).1 := h1
  replace h2 : r2 ∈ (nextAssignsOf s a rid).1 := h2
  cases haid : a.assignmentId with
  | some aid_ =>
    by_cases hrow : ∃ row ∈ s.assigns, row.id = aid_
    · obtain ⟨row, hrowm, hrowid⟩ := hrow
      subst hrowid
      have hconst := map_update_const
        (fun r => { r with order_id := a.orderId, slot_id := rid, kg_assigned := a.kgAssigned })
        hid hrowm
      obtain ⟨l₁, l₂, hdec, hmap, hnot⟩ := update_decomp
        ({ row with order_id := a.orderId, slot_id := rid, kg_assigned := a.kgAssigned })
        hid hrowm
      have hlist : (nextAssignsOf s a rid).1 =
          l₁ ++ { row with order_id := a.orderId, slot_id := rid, kg_assigned := a.kgAssigned } :: l₂ := by
        unfold nextAssignsOf
        rw [haid]
        exact hconst.trans hmap
      rw [hlist] at h1 h2
      refine pairs_of_mem_split ?_ hslotinj ?_ r1 h1 r2 h2 hs
      · intro x hx
        rw [hdec]
        rcases hx with hx | hx
        · exact List.mem_append.mpr (Or.inl hx)
        · exact List.mem_append.mpr (Or.inr (List.mem_cons_of_mem _ hx))
      · intro x hx hxs
        have hxm : x ∈ s.assigns := by
          rw [hdec]
          rcases hx with hx | hx
          · exact List.mem_append.mpr (Or.inl hx)
          · exact List.mem_append.mpr (Or.inr (List.mem_cons_of_mem _ hx))
        have hxr : x.slot_id = rid := hxs
        have hne : ¬ a.assignmentId = some x.id := by
          rw [haid]
          intro hcon
          exact hnot x hx (by simpa using hcon.symm)
        exact target_slot_same_order hid hslot hheadok hxm hxr hne
    · have hlist : (nextAssignsOf s a rid).1 = s.assigns := by
        unfold nextAssignsOf
        rw [haid]
        apply (List.map_congr_left (fun r hr => ?_)).trans (List.map_id _)
        have : ¬ r.id = aid_ := fun hcon => hrow ⟨r, hr, hcon⟩
        simp [this]
      rw [hlist] at h1 h2
      exact congrArg OrderSlot.order_id (hslotinj r1 h1 r2 h2 hs)
  | none =>
    cases hex : (orderAssignmentsOf s a.orderId).head? with
    | some ex =>
      obtain ⟨hexm, hexp⟩ := mem_of_filter_head? hex
      have hexord : ex.order_id = a.orderId := by simpa using hexp
      have hconst := map_update_const
        (fun r => { r with slot_id := rid, kg_assigned := a.kgAssigned }) hid hexm
      obtain ⟨l₁, l₂, hdec, hmap, hnot⟩ := update_decomp
        ({ ex with slot_id := rid, kg_assigned := a.kgAssigned }) hid hexm
      have hlist : (nextAssignsOf s a rid).1 =
          l₁ ++ { ex with slot_id := rid, kg_assigned := a.kgAssigned } :: l₂ := by
        unfold nextAssignsOf
        rw [haid, hex]
        exact hconst.trans hmap
      rw [hlist] at h1 h2
      refine pairs_of_mem_split ?_ hslotinj ?_ r1 h1 r2 h2 hs
      · intro x hx
        rw [hdec]
        rcases hx with hx | hx
        · exact List.mem_append.mpr (Or.inl hx)
        · exact List.mem_append.mpr (Or.inr (List.mem_cons_of_mem _ hx))
      · intro x hx hxs
        have hxm : x ∈ s.assigns := by
          rw [hdec]
          rcases hx with hx | hx
          · exact List.mem_append.mpr (Or.inl hx)
          · exact List.mem_append.mpr (Or.inr (List.mem_cons_of_mem _ hx))
        have hne : ¬ a.assignmentId = some x.id := by rw [haid]; simp
        have hord := target_slot_same_order hid hslot hheadok hxm hxs hne
        rw [hord]
        show a.orderId = ex.order_id
        rw [hexord]
    | none =>
      have hlist : (nextAssignsOf s a rid).1 =
          s.assigns ++ [{ id := s.nextId, order_id := a.orderId, slot_id := rid, kg_assigned := a.kgAssigned }] := by
        unfold nextAssignsOf
        rw [haid, hex]
      rw [hlist] at h1 h2
      refine @pairs_of_mem_split _ _ [] _ ?_ hslotinj ?_ r1 h1 r2 h2 hs
      · intro x hx
        rcases hx with hx | hx
        · exact hx
        · cases hx
      · intro x hx hxs
        rcases hx with hx | hx
        · have hne : ¬ a.assignmentId = some x.id := by rw [haid]; simp
          exact target_slot_same_order hid hslot hheadok hx hxs hne
        · cases hx

theorem seqInv_runOps {m t : Int} (s : SchedState) (ops : List SchedOp)
    (hinv : SeqInv s)
    (hops : ∀ op ∈ ops, noAssignmentId op = true) :
    SeqInv (runOps m t s ops) := by
  induction ops generalizing s with
  | nil => simpa [runOps] using hinv
  | cons op ops ih =>
    rw [runOps]
    exact ih _ (seqInv_applyOp hinv (hops op (by simp)))
      (fun o ho => hops o (List.mem_cons_of_mem _ ho))

/-! ## Claim C1 -/

/-- Concrete store for the C1 counterexample: order 1 weighs 5 kg, order 2
weighs 100 kg, no slots or assignments yet. -/
def c1CexState : SchedState :=
  { orders := [⟨1, 5, "pending"⟩, ⟨2, 100, "pending"⟩], slots := [], assigns := [], nextId := 10 }

/-- Requests of the C1 counterexample; the third call passes order 2's
assignment row id (11) as `assignment_id` while assigning order 1 to order
2's slot (id 10). -/
def c1CexOps : List SchedOp :=
  [ .assign ⟨none, 2, none, some 100, some 1, 100⟩,
    .assign ⟨none, 1, none, some 101, some 1, 5⟩,
    .assign ⟨some 11, 1, some 10, none, none, 5⟩ ]

/-- True when the request did not throw. -/
def requestSucceeded : Except String SchedState → Bool
  | .ok _ => true
  | .error _ => false

/-- C1 counterexample: from a well-formed store (order 1 has
`total_weight_kg = 5`), three `assignOrderToSlot` requests — the third
passing another order's row id as `assignment_id`, so that
`previousForAssignment` subtracts the *other* order's kg — all succeed, yet
afterwards order 1 holds 10 assigned kg, strictly more than its total
weight of 5.  (The sum never decreased through a rejection: every request
succeeded.) -/
theorem c1_counterexample :
    SeqInv c1CexState ∧
    requestSucceeded (assignOrderToSlot 100 100 c1CexState
      ⟨none, 2, none, some 100, some 1, 100⟩) = true ∧
    requestSucceeded (assignOrderToSlot 100 100 (runOps 100 100 c1CexState (c1CexOps.take 1))
      ⟨none, 1, none, some 101, some 1, 5⟩) = true ∧
    requestSucceeded (assignOrderToSlot 100 100 (runOps 100 100 c1CexState (c1CexOps.take 2))
      ⟨some 11, 1, some 10, none, none, 5⟩) = true ∧
    (⟨1, 5, "scheduled"⟩ : Order) ∈ (runOps 100 100 c1CexState c1CexOps).orders ∧
    assignedSum (runOps 100 100 c1CexState c1CexOps) 1 = 10 := by
  refine ⟨?_, ?_, ?_, ?_, ?_, ?_⟩ <;> decide

/-- C1 (amended): for every well-formed store and every sequence of
`assignOrderToSlot` requests *without* an `assignment_id` (the admin UI
always posts the assign form without one) and `deleteAssignment` requests,
the sum of `kg_assigned` across an order's `order_slots` rows never exceeds
the order's `total_weight_kg`: the action computes the order's
already-assigned kg excluding the assignment being replaced plus the
requested kg and rejects when that exceeds the total, applying no mutation
in that case.  (With an arbitrary `assignment_id` naming another order's
row the bound can be violated — see the counterexample.) -/
theorem c1_assigned_kg_within_total (m t : Int) (s₀ : SchedState) (ops : List SchedOp)
    (hinv : SeqInv s₀) (hops : ∀ op ∈ ops, noAssignmentId op = true) :
    ∀ o ∈ (runOps m t s₀ ops).orders,
      assignedSum (runOps m t s₀ ops) o.id ≤ o.total_weight_kg :=
  (seqInv_runOps s₀ ops hinv hops).2.2

/-- C1 witness: a concrete store, one assign and one unassign request. -/
theorem c1_assigned_kg_within_total_witness :
    assignedSum (runOps 50 200 ⟨[⟨7, 9, "pending"⟩], [], [], 1⟩
      [.assign ⟨none, 7, none, some 200, some 1, 4⟩, .unassign 2]) 7 ≤ 9 :=
  c1_assigned_kg_within_total 50 200 ⟨[⟨7, 9, "pending"⟩], [], [], 1⟩
    [.assign ⟨none, 7, none, some 200, some 1, 4⟩, .unassign 2]
    (by decide) (by decide) ⟨7, 9, "unassigned"⟩ (by decide)

/-! ## Claim C2 -/

/-- C2: from a store in which every slot holds at most one assignment row
(and row ids are distinct), a successful `assignOrderToSlot` leaves no two
distinct orders holding rows on the same slot; moreover success implies
that any pre-existing row on the resolved target slot other than the
assignment being updated belonged to the given order — i.e. the action
rejects whenever the target slot already holds a different order's
assignment. -/
theorem c2_one_order_per_slot {m t : Int} {s s' : SchedState} {a : AssignArgs}
    (hid : (s.assigns.map (·.id)).Nodup)
    (hslot : (s.assigns.map (·.slot_id)).Nodup)
    (hok : assignOrderToSlot m t s a = .ok s') :
    (∀ r1 ∈ s'.assigns, ∀ r2 ∈ s'.assigns, r1.slot_id = r2.slot_id →
      r1.order_id = r2.order_id) ∧
    (∀ s₁ rid, resolveSlot m s a = .ok (s₁, rid) →
      ∀ r ∈ s.assigns, r.slot_id = rid → ¬ a.assignmentId = some r.id →
        r.order_id = a.orderId) := by
  obtain ⟨hkg, order, s₁, rid, horder, hres, happ⟩ := assignOrderToSlot_ok_inv hok
  obtain ⟨ha1, ho1, hn1⟩ := resolveSlot_ok_inv hres
  have hid₁ : (s₁.assigns.map (·.id)).Nodup := by rw [ha1]; exact hid
  have hslot₁ : (s₁.assigns.map (·.slot_id)).Nodup := by rw [ha1]; exact hslot
  constructor
  · exact assign_pairs_same_order hid₁ hslot₁ happ
  · intro s₁' rid' hres' r hr hrid hne
    rw [hres] at hres'
    have hinj : s₁ = s₁' ∧ rid = rid' := by
      have := Except.ok.inj hres'
      exact ⟨congrArg Prod.fst this, congrArg Prod.snd this⟩
    obtain ⟨heq1, heq2⟩ := hinj
    obtain ⟨_, hheadok, _⟩ := applyAssignment_ok_inv happ
    have hr₁ : r ∈ s₁.assigns := by rw [ha1]; exact hr
    exact target_slot_same_order hid₁ hslot₁ hheadok hr₁ (by rw [heq2]; exact hrid) hne

/-- C2 witness: re-assigning order 1 (which already holds row 9 on slot 3)
to slot 3 succeeds, the resulting store still has one order per slot, and
the pre-existing row on the target slot indeed belongs to order 1. -/
theorem c2_one_order_per_slot_witness :
    ((⟨9, 1, 3, 5⟩ : OrderSlot).order_id = (⟨9, 1, 3, 5⟩ : OrderSlot).order_id) ∧
    (⟨9, 1, 3, 2⟩ : OrderSlot).order_id = 1 := by
  have h := @c2_one_order_per_slot 50 100
    ⟨[⟨1, 5, "pending"⟩], [⟨3, 100, 1, 50, "open"⟩], [⟨9, 1, 3, 2⟩], 10⟩
    ⟨[⟨1, 5, "scheduled"⟩], [⟨3, 100, 1, 50, "open"⟩], [⟨9, 1, 3, 5⟩], 10⟩
    ⟨none, 1, some 3, none, none, 5⟩ (by decide) (by decide) (by decide)
  exact ⟨h.1 ⟨9, 1, 3, 5⟩ (by decide) ⟨9, 1, 3, 5⟩ (by decide) rfl,
    h.2 ⟨[⟨1, 5, "pending"⟩], [⟨3, 100, 1, 50, "open"⟩], [⟨9, 1, 3, 2⟩], 10⟩ 3
      (by decide) ⟨9, 1, 3, 2⟩ (by decide) rfl (by decide)⟩

/-! ## Claim C10 -/

/-- C10: when `assignOrderToSlot` is called without an `assignment_id` and
succeeds, then (i) if the order already had an assignment row the row list
keeps exactly the same ids — the existing row is updated in place, no
second row is inserted — and (ii) if no two rows belonged to the same order
before, the same holds after, so an order's weight is never spread across
multiple slots by the assign operation. -/
theorem c10_one_assignment_row_per_order {m t : Int} {s s' : SchedState} {a : AssignArgs}
    (haid : a.assignmentId = none)
    (hok : assignOrderToSlot m t s a = .ok s') :
    (orderAssignmentsOf s a.orderId ≠ [] →
      s'.assigns.map (·.id) = s.assigns.map (·.id)) ∧
    ((s.assigns.map (·.order_id)).Nodup → (s'.assigns.map (·.order_id)).Nodup) := by
  obtain ⟨hkg, order, s₁, rid, horder, hres, happ⟩ := assignOrderToSlot_ok_inv hok
  obtain ⟨ha1, ho1, hn1⟩ := resolveSlot_ok_inv hres
  obtain ⟨hle, hheadok, rfl⟩ := applyAssignment_ok_inv happ
  have hoa : orderAssignmentsOf s₁ a.orderId = orderAssignmentsOf s a.orderId := by
    unfold orderAssignmentsOf
    rw [ha1]
  cases hex : (orderAssignmentsOf s₁ a.orderId).head? with
  | some ex =>
    have hlist : (nextAssignsOf s₁ a rid).1 = s₁.assigns.map
        (fun r => if r.id == ex.id then
          { r with slot_id := rid, kg_assigned := a.kgAssigned } else r) := by
      unfold nextAssignsOf
      rw [haid, hex]
    constructor
    · intro _
      show (nextAssignsOf s₁ a rid).1.map (·.id) = s.assigns.map (·.id)
      rw [hlist, ha1, List.map_map]
      apply List.map_congr_left
      intro r _
      show (if r.id == ex.id then
        ({ r with slot_id := rid, kg_assigned := a.kgAssigned } : OrderSlot) else r).id = r.id
      split <;> rfl
    · intro hnodup
      show ((nextAssignsOf s₁ a rid).1.map (·.order_id)).Nodup
      have : (nextAssignsOf s₁ a rid).1.map (·.order_id) = s.assigns.map (·.order_id) := by
        rw [hlist, ha1, List.map_map]
        apply List.map_congr_left
        intro r _
        show (if r.id == ex.id then
          ({ r with slot_id := rid, kg_assigned := a.kgAssigned } : OrderSlot) else r).order_id
            = r.order_id
        split <;> rfl
      rw [this]
      exact hnodup
  | none =>
    have hempty : orderAssignmentsOf s a.orderId = [] := by
      rw [← hoa]
      exact List.head?_eq_none_iff.mp hex
    have hlist : (nextAssignsOf s₁ a rid).1 = s₁.assigns ++
        [{ id := s₁.nextId, order_id := a.orderId, slot_id := rid,
           kg_assigned := a.kgAssigned }] := by
      unfold nextAssignsOf
      rw [haid, hex]
    constructor
    · intro hne
      exact absurd hempty hne
    · intro hnodup
      show ((nextAssignsOf s₁ a rid).1.map (·.order_id)).Nodup
      rw [hlist, ha1, List.map_append]
      rw [List.nodup_append]
      refine ⟨hnodup, by simp, ?_⟩
      intro x hx hx2
      obtain ⟨r, hr, rfl⟩ := List.mem_map.mp hx
      have hxid : r.order_id = a.orderId := by simpa using hx2
      have : r ∈ orderAssignmentsOf s a.orderId :=
        List.mem_filter.mpr ⟨hr, by simp [hxid]⟩
      rw [hempty] at this
      cases this

/-- C10 witness: order 1 already holds row 9 on slot 3; a no-`assignment_id`
re-assign to slot 4 keeps exactly the same row ids and keeps one row per
order. -/
theorem c10_one_assignment_row_per_order_witness :
    ([⟨9, 1, 4, 4⟩] : List OrderSlot).map (·.id) =
      ([⟨9, 1, 3, 2⟩] : List OrderSlot).map (·.id) ∧
    (([⟨9, 1, 4, 4⟩] : List OrderSlot).map (·.order_id)).Nodup := by
  have h := @c10_one_assignment_row_per_order 50 100
    ⟨[⟨1, 5, "pending"⟩], [⟨3, 100, 1, 50, "open"⟩, ⟨4, 101, 1, 50, "open"⟩],
      [⟨9, 1, 3, 2⟩], 10⟩
    ⟨[⟨1, 5, "scheduled"⟩],
      [⟨3, 100, 1, 50, "open"⟩, ⟨4, 101, 1, 50, "open"⟩], [⟨9, 1, 4, 4⟩], 10⟩
    ⟨none, 1, some 4, none, none, 4⟩ rfl (by decide)
  exact ⟨h.1 (by decide), h.2 (by decide)⟩

/-! ## Claim C7 -/

/-- C7: the past-date rule of `assignOrderToSlot`.  (i) A directly supplied
`slot_date` strictly before today is rejected with the past-date error;
(ii) when only a `slot_id` is supplied, the resolved slot's stored date is
checked and a stored date before today is rejected the same way; (iii) a
`slot_date` equal to today passes — with all other preconditions met the
call succeeds. -/
theorem c7_past_date_boundary (m t : Int) :
    (∀ s a d, a.slotDate = some d → d < t → ¬(a.slotId = none ∧ a.slotIndex = none) →
      0 < a.kgAssigned →
      assignOrderToSlot m t s a = .error "Cannot assign orders to past dates.") ∧
    (∀ s a sid order sl, a.slotDate = none → a.slotId = some sid → 0 < a.kgAssigned →
      s.orders.filter (fun o => o.id == a.orderId) = [order] →
      s.slots.filter (fun sl' => sl'.id == sid) = [sl] → sl.slot_date < t →
      assignOrderToSlot m t s a = .error "Cannot assign orders to past dates.") ∧
    (∀ s a idx order, a.assignmentId = none → a.slotId = none → a.slotDate = some t →
      a.slotIndex = some idx → 0 < a.kgAssigned →
      s.orders.filter (fun o => o.id == a.orderId) = [order] →
      a.kgAssigned ≤ order.total_weight_kg →
      s.slots.filter (fun sl => sl.slot_date == t && sl.slot_index == idx) = [] →
      orderAssignmentsOf s a.orderId = [] →
      slotAssignmentsOf s s.nextId = [] →
      ∃ s', assignOrderToSlot m t s a = .ok s') := by
  refine ⟨?_, ?_, ?_⟩
  · intro s a d hd hlt hnotnone hkg
    unfold assignOrderToSlot
    have h1 : (a.slotId == none && (a.slotDate == none || a.slotIndex == none)) = false := by
      rw [hd]
      cases hsi : a.slotId with
      | some sid => simp
      | none =>
        cases hix : a.slotIndex with
        | some idx => simp
        | none => exact absurd ⟨hsi, hix⟩ hnotnone
    have h2 : decide (a.kgAssigned ≤ 0) = false := by
      simp only [decide_eq_false_iff_not]
      omega
    simp [h1, h2, hd, hlt]
    exact fun hsi hix => hnotnone ⟨hsi, hix⟩
  · intro s a sid order sl hd hsid hkg horder hslots hlt
    unfold assignOrderToSlot
    have h1 : (a.slotId == none && (a.slotDate == none || a.slotIndex == none)) = false := by
      rw [hsid]
      simp
    have h2 : decide (a.kgAssigned ≤ 0) = false := by
      simp only [decide_eq_false_iff_not]
      omega
    have hres : resolveSlot m s a = .ok (s, sid) := by
      unfold resolveSlot
      rw [hsid]
    have hdate : storedDatePastCheck t s a sid = .error "Cannot assign orders to past dates." := by
      unfold storedDatePastCheck
      rw [hd]
      simp only [beq_self_eq_true, if_true]
      rw [hslots]
      simp [hlt]
    simp [h1, h2, hd, hsid, horder, hres, hdate]
  · intro s a idx order haid hsid hd hix hkg horder hcap hnoslot hnoorder hnoslotass
    have h1 : (a.slotId == none && (a.slotDate == none || a.slotIndex == none)) = false := by
      rw [hsid, hd, hix]
      simp
    have h2 : decide (a.kgAssigned ≤ 0) = false := by
      simp only [decide_eq_false_iff_not]
      omega
    have hres : resolveSlot m s a = .ok
        (⟨s.orders, s.slots ++ [⟨s.nextId, t, idx, m, "open"⟩], s.assigns, s.nextId + 1⟩,
          s.nextId) := by
      unfold resolveSlot
      rw [hsid, hd, hix]
      simp [hnoslot]
    have hdate : storedDatePastCheck t
        (⟨s.orders, s.slots ++ [⟨s.nextId, t, idx, m, "open"⟩], s.assigns, s.nextId + 1⟩)
        a s.nextId = .ok () := by
      unfold storedDatePastCheck
      rw [hd]
      simp
    have hmain : assignOrderToSlot m t s a = applyAssignment
        (⟨s.orders, s.slots ++ [⟨s.nextId, t, idx, m, "open"⟩], s.assigns, s.nextId + 1⟩)
        a order s.nextId := by
      unfold assignOrderToSlot
      simp [h1, h2, hd, horder, hres, hdate]
      intro _ hcontra
      rw [hix] at hcontra
      cases hcontra
    rw [hmain]
    unfold applyAssignment
    have hoa : orderAssignmentsOf
        (⟨s.orders, s.slots ++ [⟨s.nextId, t, idx, m, "open"⟩], s.assigns, s.nextId + 1⟩ :
          SchedState) a.orderId = orderAssignmentsOf s a.orderId := rfl
    have hused : orderUsedOf
        (⟨s.orders, s.slots ++ [⟨s.nextId, t, idx, m, "open"⟩], s.assigns, s.nextId + 1⟩ :
          SchedState) a s.nextId = a.kgAssigned := by
      unfold orderUsedOf previousForAssignmentOf
      rw [haid, hoa, hnoorder]
      simp
    rw [hused]
    have hlt' : ¬ order.total_weight_kg < a.kgAssigned := by omega
    rw [if_neg hlt']
    have hheadok : slotHeadOk
        (⟨s.orders, s.slots ++ [⟨s.nextId, t, idx, m, "open"⟩], s.assigns, s.nextId + 1⟩ :
          SchedState) a s.nextId = true := by
      unfold slotHeadOk
      have hsa : slotAssignmentsOf
          (⟨s.orders, s.slots ++ [⟨s.nextId, t, idx, m, "open"⟩], s.assigns, s.nextId + 1⟩ :
            SchedState) s.nextId = slotAssignmentsOf s s.nextId := rfl
      rw [hsa, hnoslotass]
      rfl
    rw [hheadok]
    simp

/-- C7 witness: (i) a past `slot_date` (99 < today = 100) is rejected;
(ii) a `slot_id`-only call whose stored slot date is 99 is rejected;
(iii) assigning to `slot_date` = today succeeds. -/
theorem c7_past_date_boundary_witness :
    assignOrderToSlot 50 100 ⟨[], [], [], 0⟩ ⟨none, 1, some 5, some 99, none, 3⟩
        = .error "Cannot assign orders to past dates." ∧
    assignOrderToSlot 50 100 ⟨[⟨1, 5, "p"⟩], [⟨4, 99, 1, 50, "open"⟩], [], 5⟩
        ⟨none, 1, some 4, none, none, 3⟩
        = .error "Cannot assign orders to past dates." ∧
    ∃ s', assignOrderToSlot 50 100 ⟨[⟨1, 5, "p"⟩], [], [], 5⟩
        ⟨none, 1, none, some 100, some 1, 3⟩ = .ok s' := by
  refine ⟨?_, ?_, ?_⟩
  · exact (c7_past_date_boundary 50 100).1 _ _ 99 rfl (by decide) (by simp) (by decide)
  · exact (c7_past_date_boundary 50 100).2.1 _ _ 4 ⟨1, 5, "p"⟩ ⟨4, 99, 1, 50, "open"⟩
      rfl rfl (by decide) (by decide) (by decide) (by decide)
  · exact (c7_past_date_boundary 50 100).2.2 _ _ 1 ⟨1, 5, "p"⟩ rfl rfl rfl rfl (by decide)
      (by decide) (by decide) (by decide) (by decide) (by decide)

/-! ## Production block calendar (OrdersTable lines 1309-1340 and 2224-2230,
actions.ts lines 630-704) -/

/-- Lowercasing through the character list (`toLowerCase()` on the ASCII
reasons used here). -/
def lowerChars (s : String) : String := String.mk (s.data.map Char.toLower)

/-- Trimming through the character list (`trim()`). -/
def trimChars (s : String) : String :=
  String.mk (((s.data.dropWhile Char.isWhitespace).reverse.dropWhile Char.isWhitespace).reverse)

/-- `isOpenOverride` (OrdersTable line 1309):
`reason?.trim().toLowerCase() === "open override"`. -/
def isOpenOverride (reason : Option String) : Bool :=
  match reason with
  | some r => lowerChars (trimChars r) == "open override"
  | none => false

/-- Row of `production_blocks`. -/
structure ProductionBlock where
  id : Nat
  start_date : Int
  end_date : Int
  reason : Option String
deriving DecidableEq, Repr

/-- Weekly default-blocked flags (`settings.no_production_*`). -/
structure WeeklyFlags where
  noSun : Bool
  noMon : Bool
  noTue : Bool
  noWed : Bool
  noThu : Bool
  noFri : Bool
  noSat : Bool
deriving DecidableEq, Repr

/-- `isBlockedByDefault` (OrdersTable lines 1323-1332); `day` is
`Date.getDay()`, 0 = Sunday. -/
def isBlockedByDefault (st : WeeklyFlags) (day : Nat) : Bool :=
  if day == 0 then st.noSun
  else if day == 1 then st.noMon
  else if day == 2 then st.noTue
  else if day == 3 then st.noWed
  else if day == 4 then st.noThu
  else if day == 5 then st.noFri
  else st.noSat

/-- `key >= block.start && key <= block.end` (line 1335). -/
def coversKey (key : Int) (b : ProductionBlock) : Bool :=
  b.start_date ≤ key && key ≤ b.end_date

/-- `blockReasonForDate` (lines 1334-1338): the reason of the first
covering block that is not an open override; JS returns `explicit.reason`,
which may itself be null. -/
def blockReasonForDate (blocks : List ProductionBlock) (key : Int) : Option String :=
  ((blocks.filter (coversKey key)).find? (fun b => !(isOpenOverride b.reason))).bind (·.reason)

/-- `hasOpenOverrideForDate` (lines 1339-1340). -/
def hasOpenOverrideForDate (blocks : List ProductionBlock) (key : Int) : Bool :=
  blocks.any (fun b => coversKey key b && isOpenOverride b.reason)

/-- `Boolean(reason)`: false for `null` and for the empty string. -/
def reasonTruthy : Option String → Bool
  | some r => !(r == "")
  | none => false

/-- The calendar's blocked computation (OrdersTable line 2230):
`(defaultBlocked && !hasOpenOverride) || Boolean(reason)`. -/
def isBlockedOn (st : WeeklyFlags) (blocks : List ProductionBlock) (day : Nat) (key : Int) :
    Bool :=
  (isBlockedByDefault st day && !(hasOpenOverrideForDate blocks key))
    || reasonTruthy (blockReasonForDate blocks key)

/-- `addManualBlock` (actions.ts:656-688): first delete any open-override
row for the exact single-day range, then — unless another explicit row for
that exact range already exists (`maybeSingle`; supabase's
`.not("reason","eq",…)` does not match NULL reasons) — insert the manual
block. -/
def addManualBlock (blocks : List ProductionBlock) (nextId : Nat) (date : Int) :
    Except String (List ProductionBlock × Nat) :=
  let afterRemove := blocks.filter (fun b =>
    !(b.start_date == date && b.end_date == date && b.reason == some "Open override"))
  match afterRemove.filter (fun b => b.start_date == date && b.end_date == date &&
      (match b.reason with | some r => !(r == "Open override") | none => false)) with
  | [] => .ok (afterRemove ++ [⟨nextId, date, date, some "Manual block"⟩], nextId + 1)
  | [_] => .ok (afterRemove, nextId)
  | _ => .error "maybeSingle: multiple production blocks matched"

/-- Reasons the application itself ever writes into `production_blocks`
(`addOpenOverride` inserts "Open override", `addManualBlock` inserts
"Manual block"). -/
def CanonicalReasons (blocks : List ProductionBlock) : Prop :=
  ∀ b ∈ blocks, b.reason = some "Open override" ∨ b.reason = some "Manual block"

instance : DecidablePred CanonicalReasons := fun bs => by
  unfold CanonicalReasons
  infer_instance

theorem isOpenOverride_canonical {b : ProductionBlock}
    (hb : b.reason = some "Open override" ∨ b.reason = some "Manual block") :
    isOpenOverride b.reason = true ↔ b.reason = some "Open override" := by
  rcases hb with h | h <;> rw [h] <;> decide

theorem reasonTruthy_blockReason_iff {blocks : List ProductionBlock} {key : Int}
    (hc : CanonicalReasons blocks) :
    reasonTruthy (blockReasonForDate blocks key) = true ↔
      ∃ b ∈ blocks, coversKey key b = true ∧ ¬ b.reason = some "Open override" := by
  unfold blockReasonForDate
  cases hfind : (blocks.filter (coversKey key)).find? (fun b => !(isOpenOverride b.reason)) with
  | none =>
    rw [List.find?_eq_none] at hfind
    constructor
    · intro h
      exact absurd h (by decide)
    · rintro ⟨b, hb, hcov, hne⟩
      have hmem : b ∈ blocks.filter (coversKey key) := List.mem_filter.mpr ⟨hb, hcov⟩
      have hio : isOpenOverride b.reason = true := by
        have h2 := hfind b hmem
        simpa using h2
      exact absurd ((isOpenOverride_canonical (hc b hb)).mp hio) hne
  | some b₀ =>
    have hmem := List.mem_of_find?_eq_some hfind
    have hb₀ : b₀ ∈ blocks := (List.mem_filter.mp hmem).1
    have hcov : coversKey key b₀ = true := (List.mem_filter.mp hmem).2
    have hp := List.find?_some hfind
    have hnot : ¬ b₀.reason = some "Open override" := by
      intro hcon
      rw [(isOpenOverride_canonical (hc b₀ hb₀)).mpr hcon] at hp
      cases hp
    constructor
    · intro _
      exact ⟨b₀, hb₀, hcov, hnot⟩
    · intro _
      rcases hc b₀ hb₀ with h | h
      · exact absurd h hnot
      · show reasonTruthy b₀.reason = true
        rw [h]
        decide

theorem hasOpenOverride_iff {blocks : List ProductionBlock} {key : Int}
    (hc : CanonicalReasons blocks) :
    hasOpenOverrideForDate blocks key = true ↔
      ∃ b ∈ blocks, coversKey key b = true ∧ b.reason = some "Open override" := by
  unfold hasOpenOverrideForDate
  rw [List.any_eq_true]
  constructor
  · rintro ⟨b, hb, hp⟩
    have h1 : coversKey key b = true := by
      have := hp
      simp only [Bool.and_eq_true] at this
      exact this.1
    have h2 : isOpenOverride b.reason = true := by
      simp only [Bool.and_eq_true] at hp
      exact hp.2
    exact ⟨b, hb, h1, (isOpenOverride_canonical (hc b hb)).mp h2⟩
  · rintro ⟨b, hb, hcov, hoo⟩
    refine ⟨b, hb, ?_⟩
    simp only [Bool.and_eq_true]
    exact ⟨hcov, (isOpenOverride_canonical (hc b hb)).mpr hoo⟩

theorem canonical_addManualBlock {blocks : List ProductionBlock} {n : Nat} {d : Int}
    {bs' : List ProductionBlock} {n' : Nat}
    (hc : CanonicalReasons blocks) (h : addManualBlock blocks n d = .ok (bs', n')) :
    CanonicalReasons bs' := by
  simp only [addManualBlock] at h
  split at h
  · cases h
    intro b hb
    rcases List.mem_append.mp hb with hb | hb
    · exact hc b (List.mem_of_mem_filter hb)
    · simp only [List.mem_singleton] at hb
      rw [hb]
      right
      rfl
  · cases h
    intro b hb
    exact hc b (List.mem_of_mem_filter hb)
  · cases h

/-! ## Claim C4 -/

/-- C4: (i) under the reasons the application writes ("Open override" /
"Manual block"), the calendar reports a date blocked iff (the weekly
default flag for its weekday is set AND no open-override block covers it)
OR some covering block has a reason other than "Open override";
(ii) `addManualBlock` deletes exactly the open-override rows for that exact
single-day range, deletes nothing else, and afterwards the date reports
blocked — the explicit block wins over any open override. -/
theorem c4_explicit_block_wins :
    (∀ (st : WeeklyFlags) (blocks : List ProductionBlock) (day : Nat) (key : Int),
      CanonicalReasons blocks →
      (isBlockedOn st blocks day key = true ↔
        (isBlockedByDefault st day = true ∧
          ¬ ∃ b ∈ blocks, coversKey key b = true ∧ b.reason = some "Open override") ∨
        ∃ b ∈ blocks, coversKey key b = true ∧ ¬ b.reason = some "Open override")) ∧
    (∀ (blocks : List ProductionBlock) (n : Nat) (d : Int) (bs' : List ProductionBlock)
        (n' : Nat), CanonicalReasons blocks → addManualBlock blocks n d = .ok (bs', n') →
      (∀ b ∈ bs', ¬ (b.start_date = d ∧ b.end_date = d ∧ b.reason = some "Open override")) ∧
      (∀ b ∈ blocks, ¬ (b.start_date = d ∧ b.end_date = d ∧ b.reason = some "Open override") →
        b ∈ bs') ∧
      (∀ (st : WeeklyFlags) (day : Nat), isBlockedOn st bs' day d = true)) := by
  constructor
  · intro st blocks day key hc
    unfold isBlockedOn
    rw [Bool.or_eq_true, Bool.and_eq_true, reasonTruthy_blockReason_iff hc]
    constructor
    · rintro (⟨hdef, hno⟩ | hex)
      · left
        refine ⟨hdef, ?_⟩
        intro hex
        rw [← hasOpenOverride_iff hc] at hex
        rw [hex] at hno
        cases hno
      · right
        exact hex
    · rintro (⟨hdef, hnotex⟩ | hex)
      · left
        refine ⟨hdef, ?_⟩
        cases hov : hasOpenOverrideForDate blocks key with
        | false => rfl
        | true => exact absurd ((hasOpenOverride_iff hc).mp hov) hnotex
      · right
        exact hex
  · intro blocks n d bs' n' hc h
    have hc' : CanonicalReasons bs' := canonical_addManualBlock hc h
    have hexpl : ∃ b ∈ bs', coversKey d b = true ∧ ¬ b.reason = some "Open override" := by
      simp only [addManualBlock] at h
      split at h
      · cases h
        refine ⟨⟨n, d, d, some "Manual block"⟩, List.mem_append.mpr (Or.inr (by simp)), ?_, ?_⟩
        · simp [coversKey]
        · show ¬ some "Manual block" = some "Open override"
          decide
      · next x hx =>
        cases h
        have hxmem : x ∈ List.filter (fun b =>
            !(b.start_date == d && b.end_date == d && b.reason == some "Open override"))
            blocks := by
          have : x ∈ [x] := by simp
          rw [← hx] at this
          exact List.mem_of_mem_filter this
        have hxp : (x.start_date == d && x.end_date == d &&
            (match x.reason with | some r => !(r == "Open override") | none => false)) = true := by
          have hmm : x ∈ [x] := by simp
          rw [← hx] at hmm
          exact (List.mem_filter.mp hmm).2
        simp only [Bool.and_eq_true, beq_iff_eq] at hxp
        obtain ⟨⟨hxs, hxe⟩, hxr⟩ := hxp
        refine ⟨x, hxmem, ?_, ?_⟩
        · simp [coversKey, hxs, hxe]
        · intro hcon
          rw [hcon] at hxr
          simp at hxr
      · cases h
    refine ⟨?_, ?_, ?_⟩
    · intro b hb
      simp only [addManualBlock] at h
      split at h
      · cases h
        rcases List.mem_append.mp hb with hbm | hbm
        · have hthis := (List.mem_filter.mp hbm).2
          simp only [Bool.not_eq_true', Bool.and_eq_false_iff, beq_iff_eq] at hthis
          rintro ⟨hs, he, hr⟩
          rcases hthis with (h1 | h2) | h3
          · exact absurd hs (by simpa using h1)
          · exact absurd he (by simpa using h2)
          · exact absurd hr (by simpa using h3)
        · simp only [List.mem_singleton] at hbm
          rw [hbm]
          rintro ⟨_, _, hr⟩
          have hr' : some "Manual block" = some "Open override" := hr
          exact absurd hr' (by decide)
      · cases h
        have hthis := (List.mem_filter.mp hb).2
        simp only [Bool.not_eq_true', Bool.and_eq_false_iff, beq_iff_eq] at hthis
        rintro ⟨hs, he, hr⟩
        rcases hthis with (h1 | h2) | h3
        · exact absurd hs (by simpa using h1)
        · exact absurd he (by simpa using h2)
        · exact absurd hr (by simpa using h3)
      · cases h
    · intro b hb hnotoo
      have hbkeep : b ∈ blocks.filter (fun b =>
          !(b.start_date == d && b.end_date == d && b.reason == some "Open override")) := by
        apply List.mem_filter.mpr
        refine ⟨hb, ?_⟩
        simp only [Bool.not_eq_true', Bool.and_eq_false_iff, beq_iff_eq]
        by_cases h1 : b.start_date = d
        · by_cases h2 : b.end_date = d
          · right
            simp only [beq_eq_false_iff_ne, ne_eq]
            exact fun hcon => hnotoo ⟨h1, h2, hcon⟩
          · left; right
            simpa using h2
        · left; left
          simpa using h1
      simp only [addManualBlock] at h
      split at h
      · cases h
        exact List.mem_append.mpr (Or.inl hbkeep)
      · cases h
        exact hbkeep
      · cases h
    · intro st day
      unfold isBlockedOn
      rw [Bool.or_eq_true]
      right
      exact (reasonTruthy_blockReason_iff hc').mpr hexpl

/-- C4 witness: Monday default-blocked, an open override on day 40 makes it
open; adding a manual block for day 40 removes the exact open-override row
and the date reports blocked again. -/
theorem c4_explicit_block_wins_witness :
    (isBlockedOn ⟨false, true, false, false, false, false, false⟩
        [⟨1, 40, 40, some "Open override"⟩] 1 40 = true ↔
      ((true : Bool) = true ∧ ¬ ∃ b ∈ ([⟨1, 40, 40, some "Open override"⟩] :
          List ProductionBlock), coversKey 40 b = true ∧ b.reason = some "Open override") ∨
      ∃ b ∈ ([⟨1, 40, 40, some "Open override"⟩] : List ProductionBlock),
        coversKey 40 b = true ∧ ¬ b.reason = some "Open override") ∧
    isBlockedOn ⟨false, true, false, false, false, false, false⟩
      [⟨2, 40, 40, some "Manual block"⟩] 1 40 = true := by
  constructor
  · exact (c4_explicit_block_wins.1 ⟨false, true, false, false, false, false, false⟩
      [⟨1, 40, 40, some "Open override"⟩] 1 40 (by decide))
  · exact (c4_explicit_block_wins.2 [⟨1, 40, 40, some "Open override"⟩] 2 40
      [⟨2, 40, 40, some "Manual block"⟩] 3 (by decide) (by decide)).2.2
      ⟨false, true, false, false, false, false, false⟩ 1

/-! ## Urgency window (CheckoutClient.tsx lines 1014-1022; pricing urgency
step modelled from the spec, `@/lib/pricing` not being among the sources) -/

/-- Milliseconds per day (`1000 * 60 * 60 * 24`). -/
def MS_PER_DAY : Int := 86400000

/-- `Math.ceil(x / 86400000)` on an exact millisecond difference. -/
def ceilDivDay (x : Int) : Int := -((-x) / MS_PER_DAY)

/-- `new Date("YYYY-MM-DD")` parses a date-only string to UTC midnight of
that calendar day. -/
def utcMidnightMs (day : Int) : Int := day * MS_PER_DAY

/-- `isUrgencyWindow` (CheckoutClient.tsx:1014-1022) at the instant `nowMs`
(epoch milliseconds): `Math.ceil((due.getTime() - now.getTime()) /
86400000) <= urgencyPeriodDays`, guarded by `hasCustomItems` and a set
due date. -/
def isUrgencyWindow (hasCustomItems : Bool) (dueDate : Option Int) (nowMs : Int)
    (urgencyPeriodDays : Int) : Bool :=
  if !hasCustomItems then false
  else
    match dueDate with
    | none => false
    | some dueDay => decide (ceilDivDay (utcMidnightMs dueDay - nowMs) ≤ urgencyPeriodDays)

/-- The local calendar day of an instant, in a deployment timezone with
the given UTC offset in milliseconds. -/
def localDayOf (nowMs tzOffsetMs : Int) : Int := (nowMs + tzOffsetMs) / MS_PER_DAY

/-- Modelled from the spec: the urgency step of `calculatePricing`
(spec section 4.1 step 6; `@/lib/pricing` is not among the sources, only
its callers are): when the urgency-window test passes, the fee is
`urgencyFeePercent%` of `basePrice+packagingPrice+labelsPrice+extrasPrice`,
else 0.  The window test itself is the in-source `isUrgencyWindow`
computation. -/
def urgencyFee (percent base packaging labels extras : Rat)
    (hasCustomItems : Bool) (dueDate : Option Int) (nowMs urgencyPeriodDays : Int) : Rat :=
  if isUrgencyWindow hasCustomItems dueDate nowMs urgencyPeriodDays then
    percent / 100 * (base + packaging + labels + extras)
  else 0

/-! ## Claim C3 -/

/-- C3 counterexample: in a deployment timezone at UTC+10h (offset
36000000 ms), with urgency window 3 days and due date day 15, the instants
`12·day − 1h` and `12·day + 1h` fall on the same local calendar day (12),
yet the first is outside the urgency window (ceil diff = 4) and the second
inside it (ceil diff = 3); the fee is 0 at the first instant and
10% × 30 = 3 at the second.  The window therefore depends on the wall
clock, not only on the local calendar date. -/
theorem c3_counterexample :
    localDayOf (12 * MS_PER_DAY - 3600000) 36000000
      = localDayOf (12 * MS_PER_DAY + 3600000) 36000000 ∧
    isUrgencyWindow true (some 15) (12 * MS_PER_DAY - 3600000) 3 = false ∧
    isUrgencyWindow true (some 15) (12 * MS_PER_DAY + 3600000) 3 = true ∧
    urgencyFee 10 20 10 0 0 true (some 15) (12 * MS_PER_DAY - 3600000) 3 = 0 ∧
    urgencyFee 10 20 10 0 0 true (some 15) (12 * MS_PER_DAY + 3600000) 3 = 3 := by
  refine ⟨by decide, by decide, by decide, ?_, ?_⟩
  · rw [urgencyFee, if_neg]
    rw [show isUrgencyWindow true (some 15) (12 * MS_PER_DAY - 3600000) 3 = false by decide]
    simp
  · rw [urgencyFee, if_pos]
    · norm_num
    · rw [show isUrgencyWindow true (some 15) (12 * MS_PER_DAY + 3600000) 3 = true by decide]

/-- C3 (amended): for a custom-item cart with a due date, the urgency fee
is charged iff `Math.ceil((dueDate@UTC-midnight − now) / 86400000) ≤
urgency window` — a wall-clock computation; it coincides with calendar-day
granularity exactly in a UTC deployment: for every instant within UTC
calendar day `D`, the window test equals `dueDay − D ≤ window`. -/
theorem c3_urgency_fee_window (percent base packaging labels extras : Rat)
    (dueDay nowMs w D : Int)
    (hp : 0 < percent) (hsub : 0 < base + packaging + labels + extras) :
    (urgencyFee percent base packaging labels extras true (some dueDay) nowMs w ≠ 0
      ↔ decide (ceilDivDay (utcMidnightMs dueDay - nowMs) ≤ w) = true) ∧
    (D * MS_PER_DAY ≤ nowMs → nowMs < (D + 1) * MS_PER_DAY →
      isUrgencyWindow true (some dueDay) nowMs w = decide (dueDay - D ≤ w)) := by
  constructor
  · have hwin : isUrgencyWindow true (some dueDay) nowMs w
        = decide (ceilDivDay (utcMidnightMs dueDay - nowMs) ≤ w) := rfl
    unfold urgencyFee
    rw [hwin]
    cases hdec : decide (ceilDivDay (utcMidnightMs dueDay - nowMs) ≤ w) with
    | true =>
      simp only [if_true]
      constructor
      · intro _; trivial
      · intro _
        have hpos : 0 < percent / 100 * (base + packaging + labels + extras) := by
          apply mul_pos
          · positivity
          · exact hsub
        exact ne_of_gt hpos
    | false =>
      simp
  · intro h1 h2
    have hceil : ceilDivDay (utcMidnightMs dueDay - nowMs) = dueDay - D := by
      unfold ceilDivDay utcMidnightMs MS_PER_DAY
      unfold MS_PER_DAY at h1 h2
      omega
    show decide (ceilDivDay (utcMidnightMs dueDay - nowMs) ≤ w) = decide (dueDay - D ≤ w)
    rw [hceil]

/-- C3 witness: concrete instants inside and outside the window. -/
theorem c3_urgency_fee_window_witness :
    (urgencyFee 10 20 10 0 0 true (some 15) (12 * MS_PER_DAY + 3600000) 3 ≠ 0
      ↔ decide (ceilDivDay (utcMidnightMs 15 - (12 * MS_PER_DAY + 3600000)) ≤ 3) = true) ∧
    isUrgencyWindow true (some 15) (12 * MS_PER_DAY + 3600000) 3 = decide ((15 : Int) - 12 ≤ 3) := by
  have h := c3_urgency_fee_window 10 20 10 0 0 15 (12 * MS_PER_DAY + 3600000) 3 12
    (by norm_num) (by norm_num)
  exact ⟨h.1, h.2 (by decide) (by decide)⟩

/-! ## Order-number conflict retry (actions.ts:18-22 and 188-210;
unnamed/part_005:56-60 and 140-166) -/

/-- A supabase insert error (`code`, `message`). -/
structure InsErr where
  code : Option String
  message : Option String
deriving DecidableEq, Repr

def startsWithChars : List Char → List Char → Bool
  | [], _ => true
  | _ :: _, [] => false
  | a :: as, b :: bs => a == b && startsWithChars as bs

def containsChars (pat : List Char) : List Char → Bool
  | [] => startsWithChars pat []
  | c :: rest => startsWithChars pat (c :: rest) || containsChars pat rest

/-- `s.includes(pat)` on strings. -/
def strIncludes (s pat : String) : Bool := containsChars pat.data s.data

/-- `isOrderNumberConflict` (actions.ts:18-22, part_005:56-60): postgres
code 23505, or a lowercased message mentioning `order_number` together
with `duplicate` or `unique`. -/
def isOrderNumberConflict (e : InsErr) : Bool :=
  if e.code == some "23505" then true
  else
    strIncludes (lowerChars (e.message.getD "")) "order_number"
      && (strIncludes (lowerChars (e.message.getD "")) "duplicate"
        || strIncludes (lowerChars (e.message.getD "")) "unique")

/-- The store's response to one insert attempt. -/
inductive InsertOutcome
  | ok
  | fail (e : InsErr)
deriving DecidableEq, Repr

/-- Result of the bounded insert loop. -/
inductive InsertLoopResult
  | created (orderNumber : String) (attempts : Nat)
  | failed (message : String) (attempts : Nat)
deriving DecidableEq, Repr

/-- `throw new Error(error.message)`. -/
def thrownMessage (e : InsErr) : String := e.message.getD ""

/-- `insertError?.message || fallback`. -/
def errMessageOr (e : Option InsErr) (fallback : String) : String :=
  match e with
  | some err => if err.message.getD "" == "" then fallback else err.message.getD ""
  | none => fallback

/-- The insert-retry loop of `upsertOrder` (actions.ts:192-210): up to 5
attempts; an order-number conflict regenerates the number (`numbers i` is
the number used by the i-th insert) and retries; any other error is thrown
immediately; after exhausting the attempts the last insert error's message
is thrown. -/
def upsertOrderInsertLoop (outcomes : Nat → InsertOutcome) (numbers : Nat → String)
    (attempt : Nat) : Nat → Option InsErr → InsertLoopResult
  | 0, lastErr => .failed (errMessageOr lastErr "Unable to create order.") attempt
  | fuel + 1, _lastErr =>
    match outcomes attempt with
    | .ok => .created (numbers attempt) (attempt + 1)
    | .fail e =>
      if isOrderNumberConflict e then
        upsertOrderInsertLoop outcomes numbers (attempt + 1) fuel (some e)
      else
        .failed (thrownMessage e) (attempt + 1)

/-- `for (let attempt = 0; attempt < 5; attempt += 1)` (actions.ts:192). -/
def upsertOrderInsert (outcomes : Nat → InsertOutcome) (numbers : Nat → String) :
    InsertLoopResult :=
  upsertOrderInsertLoop outcomes numbers 0 5 none

/-- The insert-retry loop of the public create-order route
(unnamed/part_005:142-162): additionally, an insert error whose message
mentions `label_image_url` drops that column from the payload and retries
with the *same* order number; conflicts regenerate the number (`gen i` is
what `generateOrderNumber()` returns at loop attempt i); other errors are
thrown; exhaustion throws the last error's message. -/
def postInsertLoop (outcomes : Nat → InsertOutcome) (gen : Nat → String)
    (attempt : Nat) : Nat → String → Option InsErr → InsertLoopResult
  | 0, _, lastErr => .failed (errMessageOr lastErr "Unable to place order.") attempt
  | fuel + 1, orderNumber, _lastErr =>
    match outcomes attempt with
    | .ok => .created orderNumber (attempt + 1)
    | .fail e =>
      if strIncludes (e.message.getD "") "label_image_url" then
        postInsertLoop outcomes gen (attempt + 1) fuel orderNumber (some e)
      else if isOrderNumberConflict e then
        postInsertLoop outcomes gen (attempt + 1) fuel (gen attempt) (some e)
      else
        .failed (thrownMessage e) (attempt + 1)

/-- `for (let attempt = 0; attempt < 5; attempt += 1)` (part_005:142). -/
def postInsert (outcomes : Nat → InsertOutcome) (gen : Nat → String)
    (initialNumber : String) : InsertLoopResult :=
  postInsertLoop outcomes gen 0 5 initialNumber none

theorem upsertLoop_created (outcomes : Nat → InsertOutcome) (numbers : Nat → String) :
    ∀ (fuel attempt : Nat) (lastErr : Option InsErr) (k : Nat), k < fuel →
    (∀ i, i < k → ∃ e, outcomes (attempt + i) = .fail e ∧ isOrderNumberConflict e = true) →
    outcomes (attempt + k) = .ok →
    upsertOrderInsertLoop outcomes numbers attempt fuel lastErr
      = .created (numbers (attempt + k)) (attempt + k + 1) := by
  intro fuel
  induction fuel with
  | zero => intro attempt lastErr k hk _ _; omega
  | succ fuel ih =>
    intro attempt lastErr k hk hconf hok
    cases k with
    | zero =>
      rw [Nat.add_zero] at hok
      rw [upsertOrderInsertLoop, hok]
      rfl
    | succ k =>
      obtain ⟨e0, he0, hc0⟩ := hconf 0 (by omega)
      rw [Nat.add_zero] at he0
      rw [upsertOrderInsertLoop, he0]
      simp only [hc0, if_true]
      have hrec := ih (attempt + 1) (some e0) k (by omega)
        (fun i hi => by
          obtain ⟨e, he, hc⟩ := hconf (i + 1) (by omega)
          exact ⟨e, by rw [← he]; congr 1; omega, hc⟩)
        (by rw [← hok]; congr 1; omega)
      rw [hrec]
      have h1 : attempt + 1 + k = attempt + (k + 1) := by omega
      rw [h1]

theorem upsertLoop_exhausted (outcomes : Nat → InsertOutcome) (numbers : Nat → String) :
    ∀ (fuel attempt : Nat) (lastErr : Option InsErr) (es : Nat → InsErr), 0 < fuel →
    (∀ i, i < fuel → outcomes (attempt + i) = .fail (es i)
      ∧ isOrderNumberConflict (es i) = true) →
    upsertOrderInsertLoop outcomes numbers attempt fuel lastErr
      = .failed (errMessageOr (some (es (fuel - 1))) "Unable to create order.")
          (attempt + fuel) := by
  intro fuel
  induction fuel with
  | zero => intro _ _ _ h; omega
  | succ fuel ih =>
    intro attempt lastErr es _ hall
    obtain ⟨he0, hc0⟩ := hall 0 (by omega)
    rw [Nat.add_zero] at he0
    rw [upsertOrderInsertLoop, he0]
    simp only [hc0, if_true]
    cases fuel with
    | zero =>
      rw [upsertOrderInsertLoop]
    | succ fuel' =>
      have hrec := ih (attempt + 1) (some (es 0)) (fun i => es (i + 1)) (by omega)
        (fun i hi => by
          obtain ⟨he, hc⟩ := hall (i + 1) (by omega)
          exact ⟨by rw [← he]; congr 1; omega, hc⟩)
      rw [hrec]
      have h1 : attempt + 1 + (fuel' + 1) = attempt + (fuel' + 1 + 1) := by omega
      rw [h1]
      rfl

theorem upsertLoop_immediate (outcomes : Nat → InsertOutcome) (numbers : Nat → String) :
    ∀ (fuel attempt : Nat) (lastErr : Option InsErr) (k : Nat) (e : InsErr), k < fuel →
    (∀ i, i < k → ∃ e', outcomes (attempt + i) = .fail e'
      ∧ isOrderNumberConflict e' = true) →
    outcomes (attempt + k) = .fail e → isOrderNumberConflict e = false →
    upsertOrderInsertLoop outcomes numbers attempt fuel lastErr
      = .failed (thrownMessage e) (attempt + k + 1) := by
  intro fuel
  induction fuel with
  | zero => intro attempt lastErr k e hk _ _ _; omega
  | succ fuel ih =>
    intro attempt lastErr k e hk hconf hfail hnc
    cases k with
    | zero =>
      rw [Nat.add_zero] at hfail ⊢
      rw [upsertOrderInsertLoop, hfail]
      simp only [hnc, Bool.false_eq_true, if_false]
    | succ k =>
      obtain ⟨e0, he0, hc0⟩ := hconf 0 (by omega)
      rw [Nat.add_zero] at he0
      rw [upsertOrderInsertLoop, he0]
      simp only [hc0, if_true]
      have hrec := ih (attempt + 1) (some e0) k e (by omega)
        (fun i hi => by
          obtain ⟨e', he', hc⟩ := hconf (i + 1) (by omega)
          exact ⟨e', by rw [← he']; congr 1; omega, hc⟩)
        (by rw [← hfail]; congr 1; omega) hnc
      rw [hrec]
      have h1 : attempt + 1 + k + 1 = attempt + (k + 1) + 1 := by omega
      rw [h1]

/-! ## Claim C5 -/

/-- Responses of the C5 counterexample: the first insert fails with a
`label_image_url` schema error (not an order-number conflict), the second
succeeds. -/
def c5CexOutcomes : Nat → InsertOutcome
  | 0 => .fail ⟨none, some "Could not find the label_image_url column of orders"⟩
  | _ => .ok

/-- C5 counterexample: in the public create-order route, an insert error
that is *not* an order-number conflict (a `label_image_url` schema error)
is not surfaced immediately: the engine drops the column and performs a
second insert, which succeeds — two attempts, no error surfaced. -/
theorem c5_counterexample :
    isOrderNumberConflict ⟨none, some "Could not find the label_image_url column of orders"⟩
      = false ∧
    postInsert c5CexOutcomes (fun _ => "RC200") "RC100" = .created "RC100" 2 ∧
    postInsert c5CexOutcomes (fun _ => "RC200") "RC100"
      ≠ .failed (thrownMessage ⟨none, some "Could not find the label_image_url column of orders"⟩) 1 := by
  refine ⟨by decide, by decide, by decide⟩

/-- C5 (amended): in `upsertOrder`, (1) after k conflicting inserts a
successful insert ends the loop with the k-th regenerated number and k+1
attempts (k < 5); (2) five conflicting inserts exhaust the loop and the
last insert error's message is surfaced; (3) a non-conflict insert error is
surfaced immediately, without a further attempt.  In the public
create-order route the same holds, except that (4) an insert error
mentioning `label_image_url` is retried once with that column dropped and
the same order number — only errors that are neither conflicts nor
`label_image_url` errors are surfaced immediately; (5, 6) the retried
insert keeps the number on a label error and uses a regenerated number on a
conflict. -/
theorem c5_insert_retry_bound :
    (∀ (outcomes : Nat → InsertOutcome) (numbers : Nat → String) (k : Nat), k < 5 →
      (∀ i, i < k → ∃ e, outcomes i = .fail e ∧ isOrderNumberConflict e = true) →
      outcomes k = .ok →
      upsertOrderInsert outcomes numbers = .created (numbers k) (k + 1)) ∧
    (∀ (outcomes : Nat → InsertOutcome) (numbers : Nat → String) (es : Nat → InsErr),
      (∀ i, i < 5 → outcomes i = .fail (es i) ∧ isOrderNumberConflict (es i) = true) →
      upsertOrderInsert outcomes numbers
        = .failed (errMessageOr (some (es 4)) "Unable to create order.") 5) ∧
    (∀ (outcomes : Nat → InsertOutcome) (numbers : Nat → String) (k : Nat) (e : InsErr),
      k < 5 →
      (∀ i, i < k → ∃ e', outcomes i = .fail e' ∧ isOrderNumberConflict e' = true) →
      outcomes k = .fail e → isOrderNumberConflict e = false →
      upsertOrderInsert outcomes numbers = .failed (thrownMessage e) (k + 1)) ∧
    (∀ (outcomes : Nat → InsertOutcome) (gen : Nat → String) (n0 : String) (e : InsErr),
      outcomes 0 = .fail e →
      strIncludes (e.message.getD "") "label_image_url" = false →
      isOrderNumberConflict e = false →
      postInsert outcomes gen n0 = .failed (thrownMessage e) 1) ∧
    (∀ (outcomes : Nat → InsertOutcome) (gen : Nat → String) (n0 : String) (e : InsErr),
      outcomes 0 = .fail e →
      strIncludes (e.message.getD "") "label_image_url" = true →
      outcomes 1 = .ok →
      postInsert outcomes gen n0 = .created n0 2) ∧
    (∀ (outcomes : Nat → InsertOutcome) (gen : Nat → String) (n0 : String) (e : InsErr),
      outcomes 0 = .fail e →
      strIncludes (e.message.getD "") "label_image_url" = false →
      isOrderNumberConflict e = true →
      outcomes 1 = .ok →
      postInsert outcomes gen n0 = .created (gen 0) 2) := by
  refine ⟨?_, ?_, ?_, ?_, ?_, ?_⟩
  · intro outcomes numbers k hk hconf hok
    have := upsertLoop_created outcomes numbers 5 0 none k hk
      (fun i hi => by simpa using hconf i hi) (by simpa using hok)
    simpa using this
  · intro outcomes numbers es hall
    have := upsertLoop_exhausted outcomes numbers 5 0 none es (by omega)
      (fun i hi => by simpa using hall i hi)
    simpa using this
  · intro outcomes numbers k e hk hconf hfail hnc
    have := upsertLoop_immediate outcomes numbers 5 0 none k e hk
      (fun i hi => by simpa using hconf i hi) (by simpa using hfail) hnc
    simpa using this
  · intro outcomes gen n0 e h0 hlab hnc
    rw [postInsert, postInsertLoop, h0]
    simp only [hlab, Bool.false_eq_true, if_false, hnc]
  · intro outcomes gen n0 e h0 hlab h1
    rw [postInsert, postInsertLoop, h0]
    simp only [hlab, if_true]
    rw [postInsertLoop, h1]
  · intro outcomes gen n0 e h0 hlab hc h1
    rw [postInsert, postInsertLoop, h0]
    simp only [hlab, Bool.false_eq_true, if_false, hc, if_true]
    rw [postInsertLoop, h1]

/-- An order-number unique-constraint violation as postgres reports it. -/
def c5ConflictErr : InsErr :=
  ⟨some "23505", some "duplicate key value violates unique constraint orders_order_number_key"⟩

/-- A store error unrelated to order numbers. -/
def c5OtherErr : InsErr := ⟨none, some "connection reset"⟩

/-- C5 witness: concrete outcome streams exercising every part of the
theorem. -/
theorem c5_insert_retry_bound_witness :
    upsertOrderInsert (fun _ => .ok) (fun _ => "RC300") = .created "RC300" 1 ∧
    upsertOrderInsert (fun _ => .fail c5ConflictErr) (fun _ => "RC300")
      = .failed (errMessageOr (some c5ConflictErr) "Unable to create order.") 5 ∧
    upsertOrderInsert (fun _ => .fail c5OtherErr) (fun _ => "RC300")
      = .failed (thrownMessage c5OtherErr) 1 ∧
    postInsert (fun _ => .fail c5OtherErr) (fun _ => "G") "RC100"
      = .failed (thrownMessage c5OtherErr) 1 ∧
    postInsert c5CexOutcomes (fun _ => "G") "RC100" = .created "RC100" 2 ∧
    postInsert (fun n => if n == 0 then .fail c5ConflictErr else .ok) (fun _ => "G2") "RC100"
      = .created "G2" 2 := by
  refine ⟨?_, ?_, ?_, ?_, ?_, ?_⟩
  · exact c5_insert_retry_bound.1 (fun _ => .ok) (fun _ => "RC300") 0 (by omega)
      (fun i hi => absurd hi (by omega)) rfl
  · exact c5_insert_retry_bound.2.1 (fun _ => .fail c5ConflictErr) (fun _ => "RC300")
      (fun _ => c5ConflictErr) (by decide)
  · exact c5_insert_retry_bound.2.2.1 (fun _ => .fail c5OtherErr) (fun _ => "RC300") 0
      c5OtherErr (by omega) (fun i hi => absurd hi (by omega)) rfl (by decide)
  · exact c5_insert_retry_bound.2.2.2.1 (fun _ => .fail c5OtherErr) (fun _ => "G") "RC100"
      c5OtherErr rfl (by decide) (by decide)
  · exact c5_insert_retry_bound.2.2.2.2.1 c5CexOutcomes (fun _ => "G") "RC100"
      ⟨none, some "Could not find the label_image_url column of orders"⟩ rfl (by decide) rfl
  · exact c5_insert_retry_bound.2.2.2.2.2
      (fun n => if n == 0 then .fail c5ConflictErr else .ok) (fun _ => "G2") "RC100"
      c5ConflictErr rfl (by decide) (by decide) rfl

/-! ## Refund model (admin/orders/actions.ts refundOrder, lines 331-392)

An order row as refundOrder reads and writes it.  `total_price` is the JS
number `order.total_price` (integer dollars suffice for the `amount <= 0`
guard).  `refunded_at` holds the ISO timestamp string stamped on refund. -/

structure OrderRec where
  id : Nat
  order_number : String
  status : String
  refunded_at : Option String
  woo_order_status : String
  payment_provider : Option String
  payment_transaction_id : Option String
  total_price : Option Int
deriving DecidableEq, Repr

/-- Environment of the external refund calls: the outcome
`refundSquarePayment` / `refundPayPalCapture` would produce (part_008: both
throw on failure, modelled as `.error msg`), and the wall-clock ISO string
`new Date().toISOString()` used for `refunded_at`. -/
structure RefundEnv where
  squareResult : Except String Unit
  paypalResult : Except String Unit
  timestamp : String

/-- Outcome of refundOrder: every path of the action ends in a redirect,
either the success toast or a `toast_error` carrying a message. -/
inductive RefundResult
  | success
  | failure (msg : String)
deriving DecidableEq, Repr

/-- JS falsiness of `order.payment_provider` / `order.payment_transaction_id`
(actions.ts:347): absent or the empty string. -/
def falsyOpt : Option String → Bool
  | none => true
  | some s => s == ""

/-- `Number(order.total_price ?? 0)` (actions.ts:351). -/
def amountOf (o : OrderRec) : Int := o.total_price.getD 0

/-- Provider routing of actions.ts:357-363: `"square"` goes to
refundSquarePayment, `"paypal"` to refundPayPalCapture, anything else hits
the unsupported-provider redirect (`none` here). -/
def providerCall (env : RefundEnv) (p : String) : Option (Except String Unit) :=
  if p == "square" then some env.squareResult
  else if p == "paypal" then some env.paypalResult
  else none

/-- The column values written by the update of actions.ts:366-373. -/
def refundUpdate (timestamp : String) (o : OrderRec) : OrderRec :=
  { o with status := "refunded", refunded_at := some timestamp, woo_order_status := "refunded" }

/-- refundOrder (actions.ts:331-392).  The id comes from the form (`none`
when absent); the `.maybeSingle()` lookup errors unless the filter matches
at most one row, and `error || !order` redirects with "Order not found";
the provider/transaction falsiness guard and the amount guard redirect
before any external call; the provider call's exception is caught and
redirected with its message, leaving the table untouched; only after the
call returns does the update run, targeting `.eq("id", order.id)`. -/
def refundOrder (env : RefundEnv) (orders : List OrderRec) (idOpt : Option Nat) :
    RefundResult × List OrderRec :=
  match idOpt with
  | none => (.failure "Missing order id", orders)
  | some oid =>
    match orders.filter (fun r => r.id == oid) with
    | [o] =>
      if falsyOpt o.payment_provider || falsyOpt o.payment_transaction_id then
        (.failure "Missing payment details", orders)
      else if amountOf o ≤ 0 then
        (.failure "Invalid amount", orders)
      else
        match providerCall env (o.payment_provider.getD "") with
        | none => (.failure "Unsupported provider", orders)
        | some (.error m) => (.failure m, orders)
        | some (.ok ()) =>
          (.success, orders.map (fun r => if r.id == o.id then refundUpdate env.timestamp r else r))
    | _ => (.failure "Order not found", orders)

/-- The refund update never moves a row to a different id, so rows filtered
by a different id are untouched by the success-branch map. -/
theorem filter_map_refundUpdate (l : List OrderRec) (tid oid : Nat) (ts : String)
    (hto : tid = oid) :
    (l.map (fun r => if r.id == tid then refundUpdate ts r else r)).filter
        (fun r => ! (r.id == oid))
      = l.filter (fun r => ! (r.id == oid)) := by
  subst hto
  induction l with
  | nil => rfl
  | cons r l ih =>
    by_cases h : r.id = tid
    · have h1 : (r.id == tid) = true := by simp [h]
      have h2 : ((refundUpdate ts r).id == tid) = true := by simp [refundUpdate, h]
      simp only [List.map_cons, List.filter_cons, h1, if_true, h2, Bool.not_true]
      simp only [Bool.false_eq_true, if_false, ih]
    · have h1 : (r.id == tid) = false := by simp [h]
      simp only [List.map_cons, List.filter_cons, h1, Bool.false_eq_true, if_false,
        Bool.not_false, if_true, ih]

/-- C6: refundOrder refuses to run when the looked-up order lacks a payment
provider or transaction id (leaving the table unchanged); with those present
and a positive amount it routes to the provider-specific call, and commits
nothing when that call throws — only when the external call succeeds does it
update the order to status "refunded" with refunded_at stamped, via the
single-row update keyed on the order's id. -/
theorem c6_refund_external_first (env : RefundEnv) (orders : List OrderRec)
    (oid : Nat) (o : OrderRec)
    (hlook : orders.filter (fun r => r.id == oid) = [o]) :
    ((falsyOpt o.payment_provider || falsyOpt o.payment_transaction_id) = true →
       refundOrder env orders (some oid) = (.failure "Missing payment details", orders))
    ∧ ((falsyOpt o.payment_provider || falsyOpt o.payment_transaction_id) = false →
       0 < amountOf o →
       ∀ m, providerCall env (o.payment_provider.getD "") = some (.error m) →
       refundOrder env orders (some oid) = (.failure m, orders))
    ∧ ((falsyOpt o.payment_provider || falsyOpt o.payment_transaction_id) = false →
       0 < amountOf o →
       providerCall env (o.payment_provider.getD "") = some (.ok ()) →
       refundOrder env orders (some oid)
         = (.success, orders.map
             (fun r => if r.id == o.id then refundUpdate env.timestamp r else r))) := by
  refine ⟨?_, ?_, ?_⟩
  · intro h
    simp only [refundOrder, hlook, h, if_true]
  · intro h hamt m hpc
    have hna : ¬ amountOf o ≤ 0 := by omega
    simp only [refundOrder, hlook, h, Bool.false_eq_true, if_false, hna, hpc]
  · intro h hamt hpc
    have hna : ¬ amountOf o ≤ 0 := by omega
    simp only [refundOrder, hlook, h, Bool.false_eq_true, if_false, hna, hpc]

def c6Env : RefundEnv := ⟨Except.ok (), Except.error "square is down", "2026-02-03T04:05:06.000Z"⟩

def c6Order : OrderRec :=
  ⟨7, "RC100-a", "completed", none, "completed", some "square", some "txn_1", some 50⟩

def c6Sibling : OrderRec :=
  ⟨8, "RC100-b", "completed", none, "completed", some "square", some "txn_2", some 20⟩

theorem c6_refund_external_first_witness :
    refundOrder c6Env [c6Order, c6Sibling] (some 7)
      = (.success, [c6Order, c6Sibling].map
          (fun r => if r.id == c6Order.id then refundUpdate c6Env.timestamp r else r)) :=
  (c6_refund_external_first c6Env [c6Order, c6Sibling] 7 c6Order (by decide)).2.2
    (by decide) (by decide) (by decide)

/-- C9: refunding one order touches only that order's row — whatever the
environment and whatever branch refundOrder takes, every row whose id
differs from the requested id is left exactly as it was (so the sibling of
a combined-cart pair keeps its status, refunded_at and every other field). -/
theorem c9_refund_frame (env : RefundEnv) (orders : List OrderRec) (oid : Nat) :
    ((refundOrder env orders (some oid)).2).filter (fun r => ! (r.id == oid))
      = orders.filter (fun r => ! (r.id == oid)) := by
  rcases hcase : orders.filter (fun r => r.id == oid) with _ | ⟨o, _ | ⟨o2, tl⟩⟩
  · simp only [refundOrder, hcase]
  · have hmem : o ∈ orders.filter (fun r => r.id == oid) := by
      rw [hcase]; exact List.mem_singleton_self o
    have hid : o.id = oid := by
      have hb := List.of_mem_filter hmem
      exact eq_of_beq hb
    simp only [refundOrder, hcase]
    by_cases h1 : (falsyOpt o.payment_provider || falsyOpt o.payment_transaction_id) = true
    · simp only [h1, if_true]
    · have h1f := Bool.eq_false_iff.mpr h1
      simp only [h1f, Bool.false_eq_true, if_false]
      by_cases h2 : amountOf o ≤ 0
      · simp only [if_pos h2]
      · simp only [if_neg h2]
        rcases hpc : providerCall env (o.payment_provider.getD "") with _ | e
        · simp only [hpc]
        · rcases e with m | u
          · simp only [hpc]
          · cases u
            simp only [hpc]
            exact filter_map_refundUpdate orders o.id oid env.timestamp hid
  · simp only [refundOrder, hcase]

/-! ## Order numbering (checkout route part_007:54-59 / route.ts, and the
admin upsertOrder create path, actions.ts:178-187 and 261-275) -/

/-- The OrderNumberBundle of the checkout route. -/
structure OrderNumberBundle where
  baseOrderNumber : String
  customOrderNumber : String
  premadeOrderNumber : String
deriving DecidableEq, Repr

/-- buildOrderNumbers of the checkout route (part_007:54-59): a cart with
both a custom and a premade item gets base, base-a, base-b; otherwise every
field is the plain base. -/
def buildOrderNumbers (hasCustom hasPremade : Bool) (base : String) : OrderNumberBundle :=
  if hasCustom && hasPremade then ⟨base, base ++ "-a", base ++ "-b"⟩
  else ⟨base, base, base⟩

/-- The fields of the checkout route's premade order payload the claim is
about (route.ts:239-265): the order number, and the notes column — the
payload literal carries no notes field at all. -/
def checkoutPremadeRow (nums : OrderNumberBundle) : String × Option String :=
  (nums.premadeOrderNumber, none)

/-- ORDER_SUFFIX_PATTERN (actions.ts:16), the regex "-(a|b)" anchored at the
end of the string with the i flag: matches when the char list ends in "-a"
or "-b", case-insensitively. -/
def hasOrderSuffix (cs : List Char) : Bool :=
  match cs.reverse with
  | c :: h :: _ => h == '-' && (c == 'a' || c == 'A' || c == 'b' || c == 'B')
  | _ => false

/-- `baseNumber.replace(ORDER_SUFFIX_PATTERN, "")` (actions.ts:181): the
`$`-anchored pattern can match only the final two characters, which are
dropped when it does. -/
def stripOrderSuffix (s : String) : String :=
  if hasOrderSuffix s.data then String.mk (s.data.take (s.data.length - 2)) else s

/-- The numbers computed by upsertOrder's inner buildOrderNumbers
(actions.ts:179-187): premadeOrderNumber and quoteLabel are null unless
the submitted form has premade selections. -/
structure UpsertOrderNumbers where
  baseOrderNumber : String
  customOrderNumber : String
  premadeOrderNumber : Option String
  quoteLabel : Option String
deriving DecidableEq, Repr

/-- upsertOrder's buildOrderNumbers (actions.ts:179-187), applied to an
already-resolved base seed.  `quoteLabel` is set whenever there are premade
selections (the premade number `base-b` is never the empty string, so the
`premadeOrderNumber &&` conjunct of line 185 is redundant there). -/
def buildOrderNumbersUpsert (hasPremadeSelections : Bool) (baseNumber : String) :
    UpsertOrderNumbers :=
  let baseOrderNumber := stripOrderSuffix baseNumber
  let customOrderNumber := if hasPremadeSelections then baseOrderNumber ++ "-a" else baseOrderNumber
  let premadeOrderNumber := if hasPremadeSelections then some (baseOrderNumber ++ "-b") else none
  let quoteLabel :=
    if hasPremadeSelections then some ("Quote order: #" ++ customOrderNumber) else none
  ⟨baseOrderNumber, customOrderNumber, premadeOrderNumber, quoteLabel⟩

/-- The fields of the admin upsertOrder premade payload the claim is about
(actions.ts:261-275): order_number is the premade number and notes is the
quote label naming the paired custom order. -/
def upsertPremadeRow (nums : UpsertOrderNumbers) : Option String × Option String :=
  (nums.premadeOrderNumber, nums.quoteLabel)

/-- C8 counterexample: on the checkout path a combined cart does get the
base / base-a / base-b sibling numbering, but the premade row's notes column
is null — it carries no reference to the paired custom order's number; only
the admin upsertOrder path writes the "Quote order: #…" note. -/
theorem c8_counterexample :
    buildOrderNumbers true true "RC100" = ⟨"RC100", "RC100-a", "RC100-b"⟩
    ∧ (checkoutPremadeRow (buildOrderNumbers true true "RC100")).2 = none
    ∧ (upsertPremadeRow (buildOrderNumbersUpsert true "RC100")).2
        = some "Quote order: #RC100-a" := by
  refine ⟨by decide, rfl, by decide⟩

/-- C8: a combined cart yields sibling numbers base-a (custom) and base-b
(premade) over one shared base, and a single-kind cart uses the plain base
with no suffix, on both the checkout route and the admin upsertOrder path;
the note referencing the paired custom order exists only on the admin path
(the checkout premade row's notes column is null). -/
theorem c8_sibling_numbering (base : String) :
    buildOrderNumbers true true base = ⟨base, base ++ "-a", base ++ "-b"⟩
    ∧ (∀ hc hp : Bool, (hc && hp) = false →
        buildOrderNumbers hc hp base = ⟨base, base, base⟩)
    ∧ (checkoutPremadeRow (buildOrderNumbers true true base)).2 = none
    ∧ upsertPremadeRow (buildOrderNumbersUpsert true base)
        = (some (stripOrderSuffix base ++ "-b"),
           some ("Quote order: #" ++ (stripOrderSuffix base ++ "-a")))
    ∧ (buildOrderNumbersUpsert false base).customOrderNumber = stripOrderSuffix base := by
  refine ⟨rfl, ?_, rfl, rfl, rfl⟩
  intro hc hp h
  simp only [buildOrderNumbers, h, Bool.false_eq_true, if_false]

theorem c8_sibling_numbering_witness :
    buildOrderNumbers true false "RC7" = ⟨"RC7", "RC7", "RC7"⟩
    ∧ buildOrderNumbers true true "RC7" = ⟨"RC7", "RC7" ++ "-a", "RC7" ++ "-b"⟩ :=
  ⟨(c8_sibling_numbering "RC7").2.1 true false rfl, (c8_sibling_numbering "RC7").1⟩

end RocCandy
